import Mathlib

/-!
Verification of the CVATS analysis pipeline.

This file shallowly embeds the analysis orchestration pipeline of the
CVATS web application: the fallback keyword scorer
(`src/server/analysis/score.ts`), the per-user request throttle
(`src/server/rate-limit.ts`), the Gemini file-analysis client
(`src/server/analysis/gemini.ts`) and the analysis route handler
(`src/app/api/analyses/route.ts`).  External collaborators (the blob
store, the URL signer, text extraction, the provider SDK and the
persistence layer) are modelled as oracle inputs, following the
specification's component boundaries.  Machine time is threaded
explicitly as an integer clock; every network-visible side effect is
recorded in an event trace.
-/

/-! ## JavaScript string and number primitives

The TypeScript source manipulates JS strings and IEEE numbers.  We model
strings by Lean `String` (the code only relies on ASCII behaviour) and
numbers by a sum of NaN, +Infinity and exact rationals: the only
non-finite values the scorer can produce are `0/0` (NaN) and `x/0`
(+Infinity).  Finite arithmetic is idealized to exact rationals.  The
scorer performs two rounded double operations (`matches.length /
seen.size` and `ratio * 100`); on a quotient of JS array/set sizes
their combined perturbation is below `100 * 3 * 2^-53 < 2^-44`, which is
smaller than the distance from `100*m/d` (`m < d < 2^32`) to any
half-integer it does not hit exactly.  Theorems therefore assert about
the score only conclusions stable under such a perturbation: range
bounds, a within-1 distance to the exact rounded ratio, equality with it
away from exact half boundaries, and concrete evaluations at which the
double computation provably coincides (e.g. `fl(fl(3/5)*100)` is `60`
exactly, while at the half boundary `23/40` doubles give `57` where the
exact value `57.5` would round to `58`). -/

/-- JS `\s` whitespace, restricted to its ASCII members (the code only
meets ASCII payloads). -/
def jsIsWs (c : Char) : Bool :=
  c == ' ' || c == '\t' || c == '\n' || c == '\x0d' || c == '\x0b' || c == '\x0c'

/-- JS `String.prototype.trim`: drop leading and trailing whitespace. -/
def jsTrim (s : String) : String :=
  ⟨((s.data.dropWhile jsIsWs).reverse.dropWhile jsIsWs).reverse⟩

/-- JS `String.prototype.toLowerCase` (ASCII range). -/
def jsToLower (s : String) : String :=
  ⟨s.data.map Char.toLower⟩

/-- Helper for `strIncludes`: does `needle` occur as a contiguous block
of `hay`? -/
def containsSub (needle : List Char) : List Char → Bool
  | [] => needle.isPrefixOf ([] : List Char)
  | c :: rest => needle.isPrefixOf (c :: rest) || containsSub needle rest

/-- JS `String.prototype.includes`. -/
def strIncludes (hay needle : String) : Bool :=
  containsSub needle.data hay.data

/-- The JS numbers reachable in the scorer: NaN, +Infinity, or an exact
rational. -/
inductive JsNum where
  | nan : JsNum
  | inf : JsNum
  | num : ℚ → JsNum
deriving DecidableEq, Repr

/-- JS division as used for `matches.length / seen.size`: `0/0` is NaN
and `x/0` (x > 0) is +Infinity.  Finite quotients are idealized to the
exact rational; the IEEE rounding of the double quotient is accounted
for at the theorem level (see the module comment). -/
def jsDiv (a b : ℚ) : JsNum :=
  if b = 0 then (if a = 0 then JsNum.nan else JsNum.inf) else JsNum.num (a / b)

/-- Multiplication by 100 (`ratio * 100`), lifted through the
non-finite values; the finite product is likewise idealized to the
exact rational. -/
def jsMul100 : JsNum → JsNum
  | JsNum.nan => JsNum.nan
  | JsNum.inf => JsNum.inf
  | JsNum.num q => JsNum.num (q * 100)

/-! ## `src/server/analysis/score.ts` -/

/-- `clampScore` of `score.ts`:
`value <= 0 → 0`, `value >= 100 → 100`, otherwise `Math.round(value)`.
Both comparisons are false on NaN and `Math.round NaN = NaN`;
`+Infinity >= 100` yields 100.  `Math.round` rounds half toward
+infinity, which on rationals is Mathlib's `round`. -/
def clampScore : JsNum → JsNum
  | JsNum.nan => JsNum.nan
  | JsNum.inf => JsNum.num 100
  | JsNum.num v =>
      JsNum.num (if v ≤ 0 then 0 else if 100 ≤ v then 100 else (round v : ℤ))

/-- `KeywordScore` of `score.ts`. -/
structure KeywordScore where
  score : JsNum
  keywordsMatched : List String
deriving DecidableEq, Repr

/-- `normalizeWord` of `score.ts`: `word.trim().toLowerCase()`. -/
def normalizeWord (word : String) : String :=
  jsToLower (jsTrim word)

/-- The `for (const keyword of keywords)` loop of `scoreKeywords`:
threads the `seen` set (as an insertion-ordered duplicate-free list) and
the `matches` accumulator. -/
def scoreLoop (normalizedText : String) :
    List String → List String → List String → List String × List String
  | [], seen, acc => (seen, acc)
  | kw :: rest, seen, acc =>
      let normalized := normalizeWord kw
      if normalized.length = 0 ∨ normalized ∈ seen then
        scoreLoop normalizedText rest seen acc
      else
        scoreLoop normalizedText rest (seen ++ [normalized])
          (if strIncludes normalizedText normalized then acc ++ [kw] else acc)

/-- `scoreKeywords` of `score.ts`. -/
def scoreKeywords (text : String) (keywords : List String) : KeywordScore :=
  let normalizedText := jsToLower text
  let sm := scoreLoop normalizedText keywords [] []
  if keywords.length = 0 then
    { score := JsNum.num 0, keywordsMatched := [] }
  else
    let ratio := jsDiv (sm.2.length : ℚ) (sm.1.length : ℚ)
    { score := clampScore (jsMul100 ratio), keywordsMatched := sm.2 }

/-! ## `src/server/rate-limit.ts`

The module-level `buckets` map is passed explicitly; `Date.now()` is the
explicit `now` argument.  `WINDOW_MS = 60_000` and `LIMIT = 10` are
supplied at each call site. -/

/-- `checkRateLimit`: retain the timestamps of `key` newer than
`windowMs`; deny at or above `limit` (re-storing only the retained
list), otherwise record `now` and allow. -/
def checkRateLimit (buckets : String → List Int) (key : String) (now : Int)
    (limit : Nat) (windowMs : Int) : Bool × (String → List Int) :=
  let recent := (buckets key).filter (fun timestamp => now - timestamp < windowMs)
  if limit ≤ recent.length then
    (false, fun k => if k = key then recent else buckets k)
  else
    (true, fun k => if k = key then recent ++ [now] else buckets k)

/-- `resetRateLimit`: clear every bucket. -/
def resetRateLimit (_buckets : String → List Int) : String → List Int :=
  fun _ => []

/-- Apply `checkRateLimit` for one key at each time in `ts`, collecting
the returned booleans. -/
def rateCalls (buckets : String → List Int) (key : String) (ts : List Int)
    (limit : Nat) (windowMs : Int) : List Bool × (String → List Int) :=
  match ts with
  | [] => ([], buckets)
  | t :: rest =>
      let step := checkRateLimit buckets key t limit windowMs
      let tail := rateCalls step.2 key rest limit windowMs
      (step.1 :: tail.1, tail.2)

/-! ## JSON values and the zod `RESULT_SCHEMA` of `gemini.ts`

`JSON.parse` is a host primitive; the client model below takes it as an
oracle `jsonParse : String → Option JsValue` (`none` = the SyntaxError
path).  Objects produced by `JSON.parse` have unique keys, so field
lookup takes the first match. -/

/-- Parsed JSON values.  JSON has no NaN/Infinity, so numbers are exact
rationals. -/
inductive JsValue where
  | null : JsValue
  | boolean : Bool → JsValue
  | numv : ℚ → JsValue
  | str : String → JsValue
  | arr : List JsValue → JsValue
  | obj : List (String × JsValue) → JsValue

/-- Field lookup in a parsed JSON object. -/
def objGet (fields : List (String × JsValue)) (key : String) : Option JsValue :=
  match fields with
  | [] => none
  | (k, v) :: rest => if k = key then some v else objGet rest key

/-- `z.array(z.string())`: every element must be a JSON string. -/
def asStringList : JsValue → Option (List String)
  | JsValue.arr xs => xs.mapM (fun x => match x with | JsValue.str s => some s | _ => none)
  | _ => none

/-- `feedback` sub-object of the schema. -/
structure Feedback where
  positive : List String
  improvements : List String
deriving DecidableEq, Repr

/-- `keywords` sub-object of the schema. -/
structure KeywordsOut where
  extracted : List String
  missing : List String
deriving DecidableEq, Repr

/-- `GeminiFileAnalysis = z.infer<typeof RESULT_SCHEMA>`.  `atsScore` is
a JS number; the schema only ever admits integers in [0, 100], but the
fallback scorer can in principle place any `JsNum` here. -/
structure GeminiFileAnalysis where
  atsScore : JsNum
  feedback : Feedback
  keywords : KeywordsOut
deriving DecidableEq, Repr

def asObjFields : JsValue → Option (List (String × JsValue))
  | JsValue.obj fields => some fields
  | _ => none

/-- `z.number().int().min(0).max(100)`: a JSON number that is an
integer in [0, 100]. -/
def asIntScore : JsValue → Option ℚ
  | JsValue.numv q => if q.den = 1 ∧ 0 ≤ q ∧ q ≤ 100 then some q else none
  | _ => none

/-- `z.object` for the `feedback` sub-schema. -/
def asFeedback (v : JsValue) : Option Feedback := do
  let fields ← asObjFields v
  let positive ← (objGet fields "positive").bind asStringList
  let improvements ← (objGet fields "improvements").bind asStringList
  pure { positive := positive, improvements := improvements }

/-- `z.object` for the `keywords` sub-schema. -/
def asKeywordsOut (v : JsValue) : Option KeywordsOut := do
  let fields ← asObjFields v
  let extracted ← (objGet fields "extracted").bind asStringList
  let missing ← (objGet fields "missing").bind asStringList
  pure { extracted := extracted, missing := missing }

/-- `RESULT_SCHEMA.safeParse`: object with integer `atsScore` in
[0, 100] (`z.number().int().min(0).max(100)`), `feedback` with
`positive`/`improvements` string lists and `keywords` with
`extracted`/`missing` string lists.  Unknown keys are stripped, which
the projection to the three fields models. -/
def resultSchemaParse (v : JsValue) : Option GeminiFileAnalysis := do
  let fields ← asObjFields v
  let q ← (objGet fields "atsScore").bind asIntScore
  let feedback ← (objGet fields "feedback").bind asFeedback
  let keywords ← (objGet fields "keywords").bind asKeywordsOut
  pure { atsScore := JsNum.num q, feedback := feedback, keywords := keywords }

/-- The `GeminiParseError` codes of `gemini.ts`. -/
inductive GeminiParseErrorCode where
  | EMPTY_OR_NON_JSON : GeminiParseErrorCode
  | EMPTY_PROD : GeminiParseErrorCode
  | SAFETY_REJECTION : GeminiParseErrorCode
  | TIMEOUT : GeminiParseErrorCode
deriving DecidableEq, Repr

/-- Index of the first occurrence of a triple backtick. -/
def findFenceIdx : List Char → Option Nat
  | [] => none
  | c :: rest =>
      if ['`', '`', '`'].isPrefixOf (c :: rest) then some 0
      else (findFenceIdx rest).map (· + 1)

/-- `stripMarkdownFence` of `gemini.ts`, the regex
 `value.match(...)` over one fenced code block with an optional
case-insensitive `json` tag: locate the first triple backtick, skip an
optional tag and greedy whitespace, lazily capture up to the next triple
backtick.  The source returns `match[1].trim()` only when the capture is
truthy (non-empty). -/
def stripMarkdownFence (value : String) : Option String :=
  match findFenceIdx value.data with
  | none => none
  | some i =>
      let afterOpen := value.data.drop (i + 3)
      let afterTag :=
        if ['j', 's', 'o', 'n'].isPrefixOf (afterOpen.map Char.toLower) then afterOpen.drop 4
        else afterOpen
      let afterWs := afterTag.dropWhile jsIsWs
      match findFenceIdx afterWs with
      | none => none
      | some j =>
          let capture := afterWs.take j
          if capture.isEmpty then none else some (jsTrim ⟨capture⟩)

/-- `attemptParse` inside `parseGeminiJson`: trim, reject emptiness,
`JSON.parse`, then schema-validate; every failure is the
`EMPTY_OR_NON_JSON` `GeminiParseError`. -/
def attemptParse (jsonParse : String → Option JsValue) (source : String) :
    Except GeminiParseErrorCode GeminiFileAnalysis :=
  let trimmed := jsTrim source
  if trimmed = "" then Except.error GeminiParseErrorCode.EMPTY_OR_NON_JSON
  else
    match jsonParse trimmed with
    | none => Except.error GeminiParseErrorCode.EMPTY_OR_NON_JSON
    | some v =>
        match resultSchemaParse v with
        | none => Except.error GeminiParseErrorCode.EMPTY_OR_NON_JSON
        | some a => Except.ok a

/-- `parseGeminiJson` of `gemini.ts`: parse the payload directly; on a
`GeminiParseError` (the only failure `attemptParse` raises) strip one
fenced code block and, when truthy, parse that; otherwise fail with
`EMPTY_OR_NON_JSON`. -/
def parseGeminiJson (jsonParse : String → Option JsValue) (payload : String) :
    Except GeminiParseErrorCode GeminiFileAnalysis :=
  match attemptParse jsonParse payload with
  | Except.ok a => Except.ok a
  | Except.error _ =>
      match stripMarkdownFence payload with
      | some stripped =>
          if stripped = "" then Except.error GeminiParseErrorCode.EMPTY_OR_NON_JSON
          else attemptParse jsonParse stripped
      | none => Except.error GeminiParseErrorCode.EMPTY_OR_NON_JSON

/-! ## The Gemini file client (`src/server/analysis/gemini.ts`)

The provider SDK is an external boundary.  Each `generateContent` call
is scripted as a `ProviderCall`: a wall-clock duration plus either a
response or a thrown error (status and optional RetryInfo hint).  Time
is an integer millisecond clock threaded through every step; sleeps and
call durations advance it.  Network-visible side effects are recorded as
`Event`s. -/

/-- Side effects observable at the collaborator boundaries. -/
inductive Event where
  | headPublic : String → Event
  | headAuth : String → Event
  | fetchBody : String → Event
  | generate : Event
  | uploadFile : Event
  | getFile : Event
  | deleteFile : String → Event
  | extractText : Event
  | persistCreate : Event
  | updateMeta : Event
  | sleepFor : Int → Event
deriving DecidableEq, Repr

/-- The SDK's `FinishReason` enum (`@google/generative-ai`). -/
inductive FinishReason where
  | unspecified : FinishReason
  | stop : FinishReason
  | maxTokens : FinishReason
  | safety : FinishReason
  | recitation : FinishReason
  | language : FinishReason
  | blocklist : FinishReason
  | prohibitedContent : FinishReason
  | spii : FinishReason
  | malformedFunctionCall : FinishReason
  | other : FinishReason
deriving DecidableEq, Repr

/-- The wire string of each `FinishReason` value. -/
def FinishReason.render : FinishReason → String
  | FinishReason.unspecified => "FINISH_REASON_UNSPECIFIED"
  | FinishReason.stop => "STOP"
  | FinishReason.maxTokens => "MAX_TOKENS"
  | FinishReason.safety => "SAFETY"
  | FinishReason.recitation => "RECITATION"
  | FinishReason.language => "LANGUAGE"
  | FinishReason.blocklist => "BLOCKLIST"
  | FinishReason.prohibitedContent => "PROHIBITED_CONTENT"
  | FinishReason.spii => "SPII"
  | FinishReason.malformedFunctionCall => "MALFORMED_FUNCTION_CALL"
  | FinishReason.other => "OTHER"

/-- `response.candidates?.[0]`: optional finish reason and content
parts; a part's `text` is `none` when the part is not textual. -/
structure Candidate where
  finishReason : Option FinishReason
  parts : List (Option String)
deriving DecidableEq, Repr

/-- A `generateContent` response: optional first candidate and opaque
`promptFeedback` (only ever logged). -/
structure ModelResponse where
  candidate : Option Candidate
  promptFeedback : Option String
deriving DecidableEq, Repr

/-- Outcome of one scripted `generateContent` call: a response, or a
thrown error carrying an HTTP-ish status and an optional
`RetryInfo` delay (already in milliseconds). -/
inductive CallReply where
  | ok : ModelResponse → CallReply
  | err : Option Int → Option Int → CallReply
deriving DecidableEq, Repr

/-- One scripted provider call: how long it runs and what it yields. -/
structure ProviderCall where
  duration : Int
  reply : CallReply
deriving DecidableEq, Repr

/-- Failures `analyzeWithGeminiFile` can raise: `GeminiQuotaError`
(with `retryAt`), `GeminiParseError` (with its code), or a propagated
unexpected error. -/
inductive GemFailure where
  | quota : Option Int → GemFailure
  | parseFail : GeminiParseErrorCode → GemFailure
  | unexpected : Option Int → GemFailure
deriving DecidableEq, Repr

/-- JS truthiness of an optional string (`undefined`, `null` and `""`
are falsy). -/
def jsTruthyStr : Option String → Bool
  | none => false
  | some s => !s.isEmpty

/-- `AttemptOutcome` of `gemini.ts`. -/
structure AttemptOutcome where
  text : String
  finishReason : String
  promptFeedback : Option String
deriving DecidableEq, Repr

/-- The `AttemptOutcome` a successful `generateContent` call yields:
the first candidate's finish reason (`?? "UNKNOWN"`), the joined and
trimmed textual parts, and the prompt feedback. -/
def attemptOutcomeOf (resp : ModelResponse) : AttemptOutcome :=
  let finishReason :=
    match resp.candidate with
    | some c => (c.finishReason.map FinishReason.render).getD "UNKNOWN"
    | none => "UNKNOWN"
  let parts := match resp.candidate with | some c => c.parts | none => []
  let text := jsTrim ⟨(parts.map (fun p => p.getD "")).foldr (fun a b => a.data ++ b) []⟩
  { text := text, finishReason := finishReason, promptFeedback := resp.promptFeedback }

/-- `runModelRequest` of `gemini.ts`: a successful call yields its
`attemptOutcomeOf`; on a 429, sleep `min(hint ?? 1000, maxBackoffMs)`
then raise `GeminiQuotaError` with `retryAt = Date.now() + retryMs`
(read after the sleep); on a 400 raise `SAFETY_REJECTION`; otherwise
rethrow.  With a positive `timeoutMs` the execution races a timer: the
timer wins exactly when the execution takes at least `timeoutMs`, the
loser being detached, not cancelled. -/
def runModelRequest (call : ProviderCall) (maxBackoffMs : Int)
    (timeoutMs : Option Int) (now : Int) :
    Except GemFailure AttemptOutcome × Int × List Event :=
  let execution : Except GemFailure AttemptOutcome × Int × List Event :=
    match call.reply with
    | CallReply.ok resp =>
        (Except.ok (attemptOutcomeOf resp), now + call.duration, [Event.generate])
    | CallReply.err status hint =>
        if status = some 429 then
          let retryMs := min (hint.getD 1000) maxBackoffMs
          (Except.error (GemFailure.quota (some (now + call.duration + retryMs + retryMs))),
            now + call.duration + retryMs, [Event.generate, Event.sleepFor retryMs])
        else if status = some 400 then
          (Except.error (GemFailure.parseFail GeminiParseErrorCode.SAFETY_REJECTION),
            now + call.duration, [Event.generate])
        else
          (Except.error (GemFailure.unexpected status), now + call.duration, [Event.generate])
  match timeoutMs with
  | none => execution
  | some t =>
      if t ≤ 0 then execution
      else if execution.2.1 - now < t then execution
      else (Except.error (GemFailure.parseFail GeminiParseErrorCode.TIMEOUT),
        now + t, execution.2.2)

/-- `shouldRetry` of `gemini.ts`: blank text always retries; a truthy
finish reason other than `"STOP"` retries. -/
def shouldRetry (outcome : AttemptOutcome) : Bool :=
  if (jsTrim outcome.text).isEmpty then true
  else if !outcome.finishReason.isEmpty && outcome.finishReason ≠ "STOP" then true
  else false

/-- The provider file metadata (`upload.file` / `manager.getFile`). -/
structure FileMeta where
  name : Option String
  uri : Option String
  state : Option String
deriving DecidableEq, Repr

/-- Script for the file-storage collaborator of phase 2. -/
structure UploadScript where
  uploadThrows : Bool
  file : Option FileMeta
  getFileResults : List (Option FileMeta)
  deleteOk : Bool
deriving DecidableEq, Repr

/-- The polling loop of `ensureFileActive`: up to five iterations, each
sleeping `200 * attempt` then calling `manager.getFile`; a result in
state `"ACTIVE"` with a truthy uri returns it, a thrown `getFile`
(scripted `none`, or an exhausted script) breaks.  Falling out returns
`metadata?.uri ?? null`. -/
def ensurePoll (metadataUri : Option String) (results : List (Option FileMeta)) :
    Nat → Nat → Int → Option String × Int × List Event
  | 0, _, now => (metadataUri, now, [])
  | fuel + 1, attempt, now =>
      let a1 := attempt + 1
      let now1 := now + 200 * (a1 : Int)
      match results.get? attempt with
      | some (some f) =>
          if f.state = some "ACTIVE" ∧ jsTruthyStr f.uri then
            (f.uri, now1, [Event.sleepFor (200 * (a1 : Int)), Event.getFile])
          else
            let rest := ensurePoll metadataUri results fuel a1 now1
            (rest.1, rest.2.1,
              Event.sleepFor (200 * (a1 : Int)) :: Event.getFile :: rest.2.2)
      | _ => (metadataUri, now1, [Event.sleepFor (200 * (a1 : Int)), Event.getFile])

/-- `ensureFileActive` of `gemini.ts`: without a truthy `name` return
`metadata?.uri ?? null`; with state already `"ACTIVE"` and a truthy uri
return it; otherwise poll. -/
def ensureFileActive (metadata : Option FileMeta) (results : List (Option FileMeta))
    (now : Int) : Option String × Int × List Event :=
  match metadata with
  | none => (none, now, [])
  | some m =>
      if !jsTruthyStr m.name then (m.uri, now, [])
      else if m.state = some "ACTIVE" ∧ jsTruthyStr m.uri then (m.uri, now, [])
      else ensurePoll m.uri results 5 0 now

/-- `runFileUploadAttempt` of `gemini.ts`: upload, wait for the file to
become active, and issue the storage-backed model request.  When the
file name or uri is missing the attempt returns a `"MISSING_URI"`
outcome (with no cleanup); otherwise `manager.deleteFile` is fired in a
`finally` with its promise detached and its failure swallowed, so the
result does not depend on `deleteOk`. -/
def runFileUploadAttempt (model : ProviderCall) (upload : UploadScript)
    (maxBackoffMs : Int) (timeoutMs : Option Int) (now : Int) :
    Except GemFailure AttemptOutcome × Int × List Event :=
  if upload.uploadThrows then
    (Except.error (GemFailure.unexpected none), now, [Event.uploadFile])
  else
    let fileName := upload.file.bind (fun f => f.name)
    let active := ensureFileActive upload.file upload.getFileResults now
    let fileUri := active.1
    if !jsTruthyStr fileName || !jsTruthyStr fileUri then
      (Except.ok { text := "", finishReason := "MISSING_URI", promptFeedback := none },
        active.2.1, Event.uploadFile :: active.2.2)
    else
      let r := runModelRequest model maxBackoffMs timeoutMs active.2.1
      (r.1, r.2.1,
        Event.uploadFile :: active.2.2 ++ r.2.2 ++ [Event.deleteFile (fileName.getD "")])

/-- Environment of one `analyzeWithGeminiFile` run: the build-time
flags, the `JSON.parse` primitive, and scripts for the provider calls
the run may make.  `maxBackoffMs` is the `GEMINI_MAX_BACKOFF_MS` knob
(default 4000). -/
structure GeminiEnv where
  isProd : Bool
  maxBackoffMs : Int
  jsonParse : String → Option JsValue
  inlineCall : ProviderCall
  upload : UploadScript
  fileCall : ProviderCall

/-- `ensureTimeRemaining` of `analyzeWithGeminiFile`: no deadline means
no timeout; an expired deadline raises the TIMEOUT `GeminiParseError`;
otherwise the remaining budget is the next phase's timeout. -/
def ensureTimeRemaining (deadline : Option Int) (now : Int) :
    Except GemFailure (Option Int) :=
  match deadline with
  | none => Except.ok none
  | some d => if d - now ≤ 0 then Except.error (GemFailure.parseFail GeminiParseErrorCode.TIMEOUT)
      else Except.ok (some (d - now))

/-- `analyzeWithGeminiFile` of `gemini.ts`: phase 1 submits the bytes
inline; an insufficient outcome (per `shouldRetry`) triggers the
storage-backed phase 2; a second insufficiency raises the empty
`GeminiParseError` (`EMPTY_PROD` in production).  In production the
whole sequence runs against a 7 s deadline fixed at entry. -/
def analyzeWithGeminiFile (env : GeminiEnv) (now : Int) :
    Except GemFailure GeminiFileAnalysis × Int × List Event :=
  let deadline : Option Int := if env.isProd then some (now + 7000) else none
  match ensureTimeRemaining deadline now with
  | Except.error e => (Except.error e, now, [])
  | Except.ok inlineTimeout =>
      let p1 := runModelRequest env.inlineCall env.maxBackoffMs inlineTimeout now
      match p1.1 with
      | Except.error e => (Except.error e, p1.2.1, p1.2.2)
      | Except.ok inlineOutcome =>
          if !shouldRetry inlineOutcome then
            ((parseGeminiJson env.jsonParse inlineOutcome.text).mapError GemFailure.parseFail,
              p1.2.1, p1.2.2)
          else
            match ensureTimeRemaining deadline p1.2.1 with
            | Except.error e => (Except.error e, p1.2.1, p1.2.2)
            | Except.ok fileTimeout =>
                let p2 := runFileUploadAttempt env.fileCall env.upload env.maxBackoffMs
                  fileTimeout p1.2.1
                match p2.1 with
                | Except.error e => (Except.error e, p2.2.1, p1.2.2 ++ p2.2.2)
                | Except.ok fileOutcome =>
                    if !shouldRetry fileOutcome then
                      ((parseGeminiJson env.jsonParse fileOutcome.text).mapError GemFailure.parseFail,
                        p2.2.1, p1.2.2 ++ p2.2.2)
                    else
                      (Except.error (GemFailure.parseFail
                          (if env.isProd then GeminiParseErrorCode.EMPTY_PROD
                           else GeminiParseErrorCode.EMPTY_OR_NON_JSON)),
                        p2.2.1, p1.2.2 ++ p2.2.2)

/-! ## The analysis route (`src/app/api/analyses/route.ts`)

The orchestrator.  Collaborators are oracle fields of `PostEnv`:
repository lookup, the two HEAD probes, the URL signer, the body fetch,
text extraction and the persistence identifiers.  Buffers are byte
lists.  The global rate-limit bucket mutation is not observed by any
later step of the same request and is not threaded back out. -/

/-- Node `Buffer`s, as byte lists. -/
abbrev Buf := List Nat

/-- JS truthiness of an optional number. -/
def jsTruthyOptInt : Option Int → Bool
  | none => false
  | some n => n ≠ 0

/-- The `FallbackReason` union of `route.ts`. -/
inductive FallbackReason where
  | QUOTA : FallbackReason
  | PARSE : FallbackReason
  | EMPTY : FallbackReason
  | EMPTY_PROD : FallbackReason
  | SAFETY : FallbackReason
deriving DecidableEq, Repr

/-- The string stored for each fallback reason. -/
def FallbackReason.render : FallbackReason → String
  | FallbackReason.QUOTA => "QUOTA"
  | FallbackReason.PARSE => "PARSE"
  | FallbackReason.EMPTY => "EMPTY"
  | FallbackReason.EMPTY_PROD => "EMPTY_PROD"
  | FallbackReason.SAFETY => "SAFETY"

/-- `asFallbackReason` of `route.ts`: recognize the five reason strings,
anything else becomes null. -/
def asFallbackReason (value : Option String) : Option FallbackReason :=
  match value with
  | some "QUOTA" => some FallbackReason.QUOTA
  | some "PARSE" => some FallbackReason.PARSE
  | some "EMPTY" => some FallbackReason.EMPTY
  | some "EMPTY_PROD" => some FallbackReason.EMPTY_PROD
  | some "SAFETY" => some FallbackReason.SAFETY
  | _ => none

/-- The fields of `CvRecord` the route reads. -/
structure CvRecord where
  id : String
  userId : Option String
  fileUrl : Option String
  secureUrl : String
  fileSize : Int
  mimeType : String
  publicId : Option String
  createdAtRaw : Option String
deriving DecidableEq, Repr

/-- The body accepted by `postSchema` (after a successful zod parse).
`inlineBytes` is the `__bytes` field. -/
structure PostBody where
  cvId : String
  keywords : Option (List String)
  inlineBytes : Option String
  mimeType : Option String
deriving DecidableEq, Repr

/-- Result of `headForCloudinary`: HTTP status, `response.ok`, and the
normalized content length (the source keeps only finite positive
lengths; the model allows any value, which only widens the theorems). -/
structure HeadOutcome where
  status : Int
  ok : Bool
  contentLength : Option Int
deriving DecidableEq, Repr

/-- `AnalysisHistoryRecord` as persisted by `analysisRepository.create`
(the repository copies every field and defaults `fallbackReason` to
null). -/
structure AnalysisRecord where
  id : String
  cvId : String
  userId : String
  atsScore : JsNum
  feedback : Feedback
  keywords : KeywordsOut
  usedFallback : Bool
  fallbackReason : Option String
  createdAt : String
deriving DecidableEq, Repr

/-- `ApiAnalysisResponse` of `route.ts`. -/
structure ApiAnalysisResponse where
  id : String
  cvId : String
  atsScore : JsNum
  feedback : Feedback
  keywords : KeywordsOut
  createdAt : String
  usedFallback : Bool
  fallbackReason : Option FallbackReason
deriving DecidableEq, Repr

/-- `toApiResponse` of `route.ts`. -/
def toApiResponse (record : AnalysisRecord) : ApiAnalysisResponse :=
  { id := record.id
    cvId := record.cvId
    atsScore := record.atsScore
    feedback := record.feedback
    keywords := record.keywords
    createdAt := record.createdAt
    usedFallback := record.usedFallback
    fallbackReason := asFallbackReason record.fallbackReason }

/-- `DEFAULT_KEYWORDS` of `route.ts`. -/
def DEFAULT_KEYWORDS : List String :=
  ["javascript", "react", "node", "typescript", "nextjs"]

/-- `MAX_FILE_BYTES = ANALYSIS_MAX_FILE_MB * 1024 * 1024`. -/
def MAX_FILE_BYTES (maxFileMb : Int) : Int := maxFileMb * 1024 * 1024

/-- `mapKeywords` of `route.ts`: no/empty override yields the default
list; otherwise trim every keyword and drop the blank ones. -/
def mapKeywords (keywords : Option (List String)) : List String :=
  match keywords with
  | none => DEFAULT_KEYWORDS
  | some ks =>
      if ks.length = 0 then DEFAULT_KEYWORDS
      else (ks.map jsTrim).filter (fun keyword => keyword.length > 0)

/-- `isDocumentMime` of `route.ts`: `/pdf|word|officedocument/i`. -/
def isDocumentMime (value : Option String) : Bool :=
  let lower := jsToLower (value.getD "")
  strIncludes lower "pdf" || strIncludes lower "word" || strIncludes lower "officedocument"

/-- JS `String.prototype.replace` with a plain-string pattern: replace
the first occurrence only. -/
def replaceFirstAux (pat repl : List Char) : List Char → List Char
  | [] => []
  | c :: rest =>
      if pat.isPrefixOf (c :: rest) then repl ++ (c :: rest).drop pat.length
      else c :: replaceFirstAux pat repl rest

/-- String version of `replaceFirstAux`. -/
def jsReplaceFirst (s pat repl : String) : String :=
  ⟨replaceFirstAux pat.data repl.data s.data⟩

/-- `deliveryUrlFromCv` of `route.ts`: `cv.fileUrl || cv.secureUrl`,
rewriting the legacy `/image/upload/` path to `/raw/upload/` for
document mime types. -/
def deliveryUrlFromCv (cv : CvRecord) : Option String :=
  let url :=
    if jsTruthyStr cv.fileUrl then cv.fileUrl.getD ""
    else if !cv.secureUrl.isEmpty then cv.secureUrl
    else ""
  if url = "" then none
  else if isDocumentMime (some cv.mimeType) && strIncludes url "/image/upload/" then
    some (jsReplaceFirst url "/image/upload/" "/raw/upload/")
  else some url

/-- Digit-string value for the regex capture of
`extractVersionFromUrl`. -/
def digitsToNat (ds : List Char) : Nat :=
  ds.foldl (fun n c => n * 10 + (c.toNat - 48)) 0

/-- Match `/v(\d+)/` at the head of the list, case-insensitively. -/
def matchVersion (l : List Char) : Option (List Char) :=
  match l with
  | '/' :: v :: rest =>
      if v = 'v' ∨ v = 'V' then
        let ds := rest.takeWhile Char.isDigit
        if ds ≠ [] ∧ (rest.drop ds.length).head? = some '/' then some ds else none
      else none
  | _ => none

/-- First match of `/\/v(\d+)\//i` anywhere in the list. -/
def findVersion : List Char → Option Nat
  | [] => none
  | c :: rest =>
      match matchVersion (c :: rest) with
      | some ds => some (digitsToNat ds)
      | none => findVersion rest

/-- `extractVersionFromUrl` of `route.ts` (the parsed digit capture is
always finite). -/
def extractVersionFromUrl (url : String) : Option Nat :=
  findVersion url.data

/-- `Number.parseInt(s, 10)`: skip whitespace, optional sign, then the
leading digit run; no digits is NaN (`none`). -/
def jsParseInt (s : String) : Option Int :=
  let l := s.data.dropWhile jsIsWs
  let core : List Char → Option Nat := fun cs =>
    let ds := cs.takeWhile Char.isDigit
    if ds.isEmpty then none else some (digitsToNat ds)
  match l with
  | '-' :: rest => (core rest).map (fun n => -(n : Int))
  | '+' :: rest => (core rest).map (fun n => (n : Int))
  | _ => (core l).map (fun n => (n : Int))

/-- Base64 alphabet membership. -/
def isBase64Char (c : Char) : Bool :=
  ('A' ≤ c && c ≤ 'Z') || ('a' ≤ c && c ≤ 'z') || ('0' ≤ c && c ≤ '9') || c = '+' || c = '/'

/-- `^[A-Za-z0-9+/]+={0,2}$`. -/
def isValidBase64Format (l : List Char) : Bool :=
  let core := l.takeWhile isBase64Char
  let rest := l.drop core.length
  decide (1 ≤ core.length) && rest.all (fun c => c = '=') && decide (rest.length ≤ 2)

/-- Value of one base64 digit (`'='` padding contributes 0). -/
def base64Val (c : Char) : Nat :=
  if 'A' ≤ c && c ≤ 'Z' then c.toNat - 65
  else if 'a' ≤ c && c ≤ 'z' then c.toNat - 97 + 26
  else if '0' ≤ c && c ≤ '9' then c.toNat - 48 + 52
  else if c = '+' then 62
  else if c = '/' then 63
  else 0

/-- Standard base64 decoding of a format-validated string
(`Buffer.from(s, "base64")`). -/
def base64DecodeGroups : List Char → List Nat
  | a :: b :: c :: d :: rest =>
      let v := base64Val a * 262144 + base64Val b * 4096 + base64Val c * 64 + base64Val d
      let take := if d = '=' then (if c = '=' then 1 else 2) else 3
      ([v / 65536, v / 256 % 256, v % 256].take take) ++ base64DecodeGroups rest
  | _ => []

/-- Response of `POST`: a classified error, or 201 with the persisted
record and its API projection. -/
inductive PostResult where
  | errorResp : Int → String → PostResult
  | created : AnalysisRecord → ApiAnalysisResponse → PostResult
deriving DecidableEq, Repr

/-- Environment of one `POST` invocation: session, throttle state,
clock, parsed body, configuration, and the collaborator oracles. -/
structure PostEnv where
  sessionUserId : Option String
  buckets : String → List Int
  now : Int
  body : Option PostBody
  forceAuthHeader : Bool
  isProd : Bool
  maxFileMb : Int
  maxBackoffMs : Int
  findCv : String → Option CvRecord
  headPublic : String → HeadOutcome
  signUrl : String → Option Int → Except Unit String
  headAuth : String → HeadOutcome
  fetchBinary : String → Option (Buf × Option String)
  extractText : Buf → String → String
  hasGeminiKey : Bool
  jsonParse : String → Option JsValue
  inlineCall : ProviderCall
  upload : UploadScript
  fileCall : ProviderCall
  newId : String
  createdAt : String

/-- The client environment a `POST` run hands to
`analyzeWithGeminiFile`. -/
def geminiEnvOf (env : PostEnv) : GeminiEnv :=
  { isProd := env.isProd
    maxBackoffMs := env.maxBackoffMs
    jsonParse := env.jsonParse
    inlineCall := env.inlineCall
    upload := env.upload
    fileCall := env.fileCall }

/-- The `catch` classification of `route.ts`: `GeminiQuotaError →
QUOTA`; `GeminiParseError` by code (`EMPTY_OR_NON_JSON → EMPTY`,
`EMPTY_PROD → EMPTY_PROD`, `SAFETY_REJECTION → SAFETY`, anything else —
i.e. `TIMEOUT` — `PARSE`); unexpected errors → `PARSE`. -/
def classifyFailure : GemFailure → FallbackReason
  | GemFailure.quota _ => FallbackReason.QUOTA
  | GemFailure.parseFail GeminiParseErrorCode.EMPTY_OR_NON_JSON => FallbackReason.EMPTY
  | GemFailure.parseFail GeminiParseErrorCode.EMPTY_PROD => FallbackReason.EMPTY_PROD
  | GemFailure.parseFail GeminiParseErrorCode.SAFETY_REJECTION => FallbackReason.SAFETY
  | GemFailure.parseFail GeminiParseErrorCode.TIMEOUT => FallbackReason.PARSE
  | GemFailure.unexpected _ => FallbackReason.PARSE

/-- `buildFallbackAnalysis` of `route.ts`: extract text, score the
keywords, derive `missing` as the non-matched keywords, and synthesize
feedback lines. -/
def buildFallbackAnalysis (extractText : Buf → String → String) (buffer : Buf)
    (mimeType : String) (keywords : List String) : GeminiFileAnalysis :=
  let text := extractText buffer mimeType
  let outcome := scoreKeywords text keywords
  let missing := keywords.filter (fun keyword => !outcome.keywordsMatched.contains keyword)
  { atsScore := outcome.score
    feedback :=
      { positive :=
          if outcome.keywordsMatched.length ≠ 0 then
            outcome.keywordsMatched.map (fun keyword => "Mentions " ++ keyword)
          else ["No target keywords detected."]
        improvements :=
          if missing.length ≠ 0 then
            missing.map (fun keyword => "Consider highlighting " ++ keyword)
          else ["No obvious keyword gaps detected."] }
    keywords := { extracted := outcome.keywordsMatched, missing := missing } }

/-- The record `analysisRepository.create` persists: the analysis
fields plus `usedFallback := fallbackReason !== null` and
`fallbackReason := usedFallback ? fallbackReason : null`, with the
repository-assigned id and timestamp. -/
def mkStored (env : PostEnv) (cvId uid : String) (result : GeminiFileAnalysis)
    (fallbackReason : Option FallbackReason) : AnalysisRecord :=
  { id := env.newId
    cvId := cvId
    userId := uid
    atsScore := result.atsScore
    feedback := result.feedback
    keywords := result.keywords
    usedFallback := fallbackReason.isSome
    fallbackReason :=
      if fallbackReason.isSome then fallbackReason.map FallbackReason.render else none
    createdAt := env.createdAt }

/-- The tail of `POST` after the source bytes are in hand: remote
attempt (when a key is configured), failure classification, fallback
scoring, persistence and the 201 response.  Always persists. -/
def analysisFinish (env : PostEnv) (cvId uid : String) (keywordList : List String)
    (buffer : Buf) (mimeType : String) : PostResult × List Event :=
  let attempt : Option GeminiFileAnalysis × Option FallbackReason × List Event :=
    if env.hasGeminiKey then
      match analyzeWithGeminiFile (geminiEnvOf env) env.now with
      | (Except.ok r, _, evs) => (some r, none, evs)
      | (Except.error e, _, evs) => (none, some (classifyFailure e), evs)
    else (none, some FallbackReason.PARSE, [])
  let geminiResult := attempt.1
  let reason0 := attempt.2.1
  let result : GeminiFileAnalysis × List Event :=
    match geminiResult, reason0 with
    | some r, none => (r, [])
    | _, _ => (buildFallbackAnalysis env.extractText buffer mimeType keywordList,
        [Event.extractText])
  let fallbackReason : Option FallbackReason :=
    if geminiResult.isNone then some (reason0.getD FallbackReason.PARSE) else reason0
  let stored : AnalysisRecord := mkStored env cvId uid result.1 fallbackReason
  (PostResult.created stored (toApiResponse stored),
    attempt.2.2 ++ result.2 ++ [Event.persistCreate, Event.updateMeta])

/-- The download half of `POST`: inline base64 bytes when supplied,
otherwise the delivery-URL probe sequence (public HEAD, then the signed
authenticated HEAD) followed by the body fetch.  Yields the buffer, the
response mime and the last known remote size, or the early error
response. -/
def resolveSource (env : PostEnv) (cv : CvRecord) (inlineBytes inlineMime : Option String)
    (forceAuth : Bool) : Except (PostResult × List Event) (Buf × Option String × Option Int × List Event) :=
  match inlineBytes with
  | some ib =>
      let normalized : List Char := ib.data.filter (fun c => !jsIsWs c)
      if !(isValidBase64Format normalized && decide (normalized.length % 4 = 0)) then
        Except.error (PostResult.errorResp 400 "INVALID_INLINE_BYTES", [])
      else
        let buf := base64DecodeGroups normalized
        if buf.length = 0 then
          Except.error (PostResult.errorResp 400 "INVALID_INLINE_BYTES", [])
        else
          Except.ok (buf, some (inlineMime.getD cv.mimeType), some (buf.length : Int), [])
  | none =>
      match deliveryUrlFromCv cv with
      | none => Except.error (PostResult.errorResp 502 "CLOUDINARY_FETCH_FAILED", [])
      | some downloadUrl =>
          let publicHeadRaw := env.headPublic downloadUrl
          let publicHead := if forceAuth then
              ({ status := 403, ok := false, contentLength := none } : HeadOutcome)
            else publicHeadRaw
          let evs0 := [Event.headPublic downloadUrl]
          let remoteSize0 := publicHead.contentLength
          let afterHead : String → Option Int → List Event →
              Except (PostResult × List Event) (Buf × Option String × Option Int × List Event) :=
            fun finalUrl remoteSize evs =>
              if (match remoteSize with
                  | some n => decide (n > MAX_FILE_BYTES env.maxFileMb)
                  | none => false) then
                Except.error (PostResult.errorResp 413
                  ("File exceeds " ++ toString env.maxFileMb ++ "MB analysis limit."), evs)
              else if finalUrl = "" then
                Except.error (PostResult.errorResp 502 "CLOUDINARY_FETCH_FAILED", evs)
              else
                match env.fetchBinary finalUrl with
                | none => Except.error (PostResult.errorResp 502 "CLOUDINARY_FETCH_FAILED",
                    evs ++ [Event.fetchBody finalUrl])
                | some (buf, mime) =>
                    Except.ok (buf, mime, remoteSize, evs ++ [Event.fetchBody finalUrl])
          if publicHead.ok && jsTruthyOptInt remoteSize0 && remoteSize0.getD 0 > 0 then
            afterHead downloadUrl remoteSize0 evs0
          else
            if !jsTruthyStr cv.publicId then
              Except.error (PostResult.errorResp 502 "CLOUDINARY_FETCH_FAILED", evs0)
            else
              let version : Option Int :=
                match extractVersionFromUrl downloadUrl with
                | some n => some (n : Int)
                | none =>
                    if jsTruthyStr cv.createdAtRaw ∧
                        (jsParseInt (cv.createdAtRaw.getD "")).isSome then
                      jsParseInt (cv.createdAtRaw.getD "")
                    else none
              match env.signUrl (cv.publicId.getD "") version with
              | Except.error _ =>
                  Except.error (PostResult.errorResp 502 "CLOUDINARY_FETCH_FAILED", evs0)
              | Except.ok signedUrl =>
                  let authHead := env.headAuth signedUrl
                  let evs1 := evs0 ++ [Event.headAuth signedUrl]
                  if !authHead.ok then
                    Except.error (PostResult.errorResp 502 "CLOUDINARY_FETCH_FAILED", evs1)
                  else
                    afterHead signedUrl authHead.contentLength evs1

/-- `POST` of `route.ts`: auth, throttle, payload validation, ownership,
the stored-size gate, source resolution, the remote/fallback analysis
and persistence.  The response and the trace of collaborator effects. -/
def POST (env : PostEnv) : PostResult × List Event :=
  match env.sessionUserId with
  | none => (PostResult.errorResp 401 "Unauthorized", [])
  | some uid =>
      if uid = "" then (PostResult.errorResp 401 "Unauthorized", [])
      else if !(checkRateLimit env.buckets ("analysis:" ++ uid) env.now 10 60000).1 then
        (PostResult.errorResp 429 "Rate limit exceeded. Please wait before retrying.", [])
      else
        match env.body with
        | none => (PostResult.errorResp 400 "Invalid payload", [])
        | some body =>
            let forceAuth := !env.isProd && env.forceAuthHeader
            let inlineBytes :=
              match body.inlineBytes with
              | some s => if 0 < (jsTrim s).length then some (jsTrim s) else none
              | none => none
            let inlineMime :=
              match body.mimeType with
              | some s => if 0 < (jsTrim s).length then some (jsTrim s) else none
              | none => none
            match env.findCv body.cvId with
            | none => (PostResult.errorResp 404 "CV not found", [])
            | some cv =>
                if cv.userId ≠ some uid then (PostResult.errorResp 404 "CV not found", [])
                else if cv.fileSize > MAX_FILE_BYTES env.maxFileMb then
                  (PostResult.errorResp 413
                    ("File exceeds " ++ toString env.maxFileMb ++ "MB analysis limit."), [])
                else
                  match resolveSource env cv inlineBytes inlineMime forceAuth with
                  | Except.error resp => resp
                  | Except.ok (buf, mime, remoteSize, evs) =>
                      if (match remoteSize with
                          | some n => decide (n > MAX_FILE_BYTES env.maxFileMb)
                          | none => false) then
                        (PostResult.errorResp 413
                          ("File exceeds " ++ toString env.maxFileMb ++ "MB analysis limit."), evs)
                      else
                        let keywordList := mapKeywords body.keywords
                        if (buf.length : Int) > MAX_FILE_BYTES env.maxFileMb then
                          (PostResult.errorResp 413
                            ("File exceeds " ++ toString env.maxFileMb ++ "MB analysis limit."), evs)
                        else
                          let mimeType := mime.getD cv.mimeType
                          let fin := analysisFinish env body.cvId uid keywordList buf mimeType
                          (fin.1, evs ++ fin.2)

/-! ## Lemmas about the fallback scorer -/

/-- A string of length zero is the empty string. -/
theorem stringLengthZero (s : String) (h : s.length = 0) : s = "" := by
  cases s with
  | mk data =>
      have hd : data = [] := List.length_eq_zero.mp h
      exact congrArg String.mk hd

/-- The denominator the scorer divides by: the number of distinct
normalized non-blank keywords. -/
def distinctKeywordCount (K : List String) : ℕ :=
  (((K.map normalizeWord).filter (fun w => w ≠ "")).toFinset).card

/-- The matched accumulator never outgrows the seen set. -/
theorem scoreLoop_acc_le (t : String) (K : List String) :
    ∀ s a : List String, a.length ≤ s.length →
      ((scoreLoop t K s a).2).length ≤ ((scoreLoop t K s a).1).length := by
  induction K with
  | nil => intro s a h; simp only [scoreLoop]; exact h
  | cons kw rest ih =>
      intro s a h
      simp only [scoreLoop]
      by_cases h0 : (normalizeWord kw).length = 0 ∨ normalizeWord kw ∈ s
      · rw [if_pos h0]; exact ih s a h
      · rw [if_neg h0]
        refine ih _ _ ?_
        by_cases h2 : strIncludes t (normalizeWord kw) = true
        · rw [if_pos h2]; simp; omega
        · rw [if_neg h2]; simp; omega

/-- The final seen set is duplicate-free and holds exactly the initial
seen set together with every normalized non-blank keyword. -/
theorem scoreLoop_seen (t : String) (K : List String) :
    ∀ s a : List String, s.Nodup →
      ((scoreLoop t K s a).1).Nodup ∧
      ((scoreLoop t K s a).1).toFinset =
        s.toFinset ∪ ((K.map normalizeWord).filter (fun w => w ≠ "")).toFinset := by
  induction K with
  | nil => intro s a hs; simpa [scoreLoop] using hs
  | cons kw rest ih =>
      intro s a hs
      simp only [scoreLoop]
      by_cases h0 : (normalizeWord kw).length = 0 ∨ normalizeWord kw ∈ s
      · rw [if_pos h0]
        obtain ⟨h1, h2⟩ := ih s a hs
        refine ⟨h1, ?_⟩
        rw [h2]
        rcases h0 with h0 | h0
        · have hz : normalizeWord kw = "" := stringLengthZero _ h0
          simp [List.filter_cons, hz]
        · by_cases hz : normalizeWord kw = ""
          · simp [List.filter_cons, hz]
          · ext x
            by_cases hx : x = normalizeWord kw
            · subst hx
              simp [List.filter_cons, hz, h0]
            · simp [List.filter_cons, hz, hx]
      · rw [if_neg h0]
        push_neg at h0
        obtain ⟨hlen, hmem⟩ := h0
        have hz : normalizeWord kw ≠ "" := by
          intro h
          exact hlen (by simp [h])
        have hs' : (s ++ [normalizeWord kw]).Nodup := by
          simp [List.nodup_append, hs, hmem]
        obtain ⟨h1, h2⟩ := ih (s ++ [normalizeWord kw]) _ hs'
        refine ⟨h1, ?_⟩
        rw [h2]
        ext x
        simp only [List.toFinset_append, Finset.mem_union, List.mem_toFinset,
          List.filter_cons, List.map_cons, hz, decide_eq_true_eq, decide_not]
        by_cases hx : x = normalizeWord kw <;> simp [hx, hz]


/-- Arithmetic core of the scorer: for a well-defined ratio `m/d` with
`m ≤ d`, the clamped rounded percentage is exactly
`round (100 * m / d)`, an integer in [0, 100]. -/
theorem clampScore_ratio (m d : ℕ) (hd : 0 < d) (hmd : m ≤ d) :
    clampScore (jsMul100 (jsDiv (m : ℚ) (d : ℚ))) =
      JsNum.num ((round ((100 : ℚ) * m / d) : ℤ) : ℚ) ∧
    0 ≤ round ((100 : ℚ) * m / d) ∧ round ((100 : ℚ) * m / d) ≤ 100 := by
  have hdq : ((d : ℚ)) ≠ 0 := by positivity
  have hq0 : (0 : ℚ) ≤ (m : ℚ) / (d : ℚ) * 100 := by positivity
  have hq100 : (m : ℚ) / (d : ℚ) * 100 ≤ 100 := by
    have h1 : (m : ℚ) / (d : ℚ) ≤ 1 := by
      rw [div_le_one (by exact_mod_cast hd)]
      exact_mod_cast hmd
    nlinarith
  have hqeq : (m : ℚ) / (d : ℚ) * 100 = (100 : ℚ) * m / d := by ring
  have hround0 : 0 ≤ round ((100 : ℚ) * m / d) := by
    rw [round_eq, Int.le_floor]
    push_cast
    rw [← hqeq]
    linarith
  have hround100 : round ((100 : ℚ) * m / d) ≤ 100 := by
    rw [round_eq, Int.floor_le_iff]
    push_cast
    rw [← hqeq]
    linarith
  refine ⟨?_, hround0, hround100⟩
  rw [jsDiv, if_neg hdq]
  simp only [jsMul100, clampScore]
  congr 1
  by_cases hle : (m : ℚ) / (d : ℚ) * 100 ≤ 0
  · have hqz : (m : ℚ) / (d : ℚ) * 100 = 0 := le_antisymm hle hq0
    rw [if_pos hle, ← hqeq, hqz]
    norm_num
  · rw [if_neg hle]
    by_cases hge : (100 : ℚ) ≤ (m : ℚ) / (d : ℚ) * 100
    · have hqh : (m : ℚ) / (d : ℚ) * 100 = 100 := le_antisymm hq100 hge
      rw [if_pos hge, ← hqeq, hqh]
      norm_num
    · rw [if_neg hge, hqeq]

/-- Evaluation of `scoreKeywords` when some keyword survives
normalization: the score is the rounded percentage of matched keywords
over the distinct non-blank normalized keywords, an integer in
[0, 100]. -/
theorem scoreKeywords_eval (T : String) (K : List String)
    (hK : ∃ kw ∈ K, normalizeWord kw ≠ "") :
    0 < distinctKeywordCount K ∧
    (scoreKeywords T K).keywordsMatched.length ≤ distinctKeywordCount K ∧
    (scoreKeywords T K).score =
      JsNum.num ((round ((100 : ℚ) * (scoreKeywords T K).keywordsMatched.length /
        (distinctKeywordCount K : ℚ)) : ℤ) : ℚ) ∧
    0 ≤ round ((100 : ℚ) * (scoreKeywords T K).keywordsMatched.length /
        (distinctKeywordCount K : ℚ)) ∧
    round ((100 : ℚ) * (scoreKeywords T K).keywordsMatched.length /
        (distinctKeywordCount K : ℚ)) ≤ 100 := by
  obtain ⟨kw0, hkw0, hnb0⟩ := hK
  obtain ⟨hnodup, hsetEq⟩ := scoreLoop_seen (jsToLower T) K [] [] List.nodup_nil
  have hKne : K ≠ [] := by rintro rfl; simp at hkw0
  have hKlen : ¬ K.length = 0 := by simpa [List.length_eq_zero] using hKne
  have hm : (scoreKeywords T K).keywordsMatched = (scoreLoop (jsToLower T) K [] []).2 := by
    simp only [scoreKeywords, hKlen, if_false]
  have hlen : ((scoreLoop (jsToLower T) K [] []).1).length = distinctKeywordCount K := by
    rw [← List.toFinset_card_of_nodup hnodup, hsetEq]
    simp [distinctKeywordCount]
  have hmem0 : normalizeWord kw0 ∈ (scoreLoop (jsToLower T) K [] []).1 := by
    have h1 : normalizeWord kw0 ∈ ((scoreLoop (jsToLower T) K [] []).1).toFinset := by
      rw [hsetEq]
      simp only [List.toFinset_nil, Finset.empty_union, List.mem_toFinset, List.mem_filter,
        List.mem_map, decide_eq_true_eq]
      exact ⟨⟨kw0, hkw0, rfl⟩, by simpa using hnb0⟩
    exact List.mem_toFinset.mp h1
  have hdpos : 0 < distinctKeywordCount K := by
    rw [← hlen]
    exact List.length_pos.mpr (List.ne_nil_of_mem hmem0)
  have hmle : (scoreKeywords T K).keywordsMatched.length ≤ distinctKeywordCount K := by
    rw [hm, ← hlen]
    exact scoreLoop_acc_le (jsToLower T) K [] [] (Nat.le_refl 0)
  have key := clampScore_ratio ((scoreLoop (jsToLower T) K [] []).2.length)
    (distinctKeywordCount K) hdpos (by rw [hm] at hmle; exact hmle)
  have hscoreEq : (scoreKeywords T K).score =
      clampScore (jsMul100 (jsDiv ((scoreLoop (jsToLower T) K [] []).2.length : ℚ)
        ((distinctKeywordCount K : ℚ)))) := by
    simp only [scoreKeywords, hKlen, if_false]
    rw [hlen]
  refine ⟨hdpos, hmle, ?_, ?_, ?_⟩
  · rw [hscoreEq, hm]
    exact key.1
  · rw [hm]
    exact key.2.1
  · rw [hm]
    exact key.2.2

/-- C2 counterexample: on the all-blank keyword list `[" "]` the scorer
divides 0 by 0, so the score is NaN — not a number in [0, 100] as the
claim states for every keyword list. -/
theorem scoreKeywords_blank_keywords_nan :
    (scoreKeywords "javascript developer" [" "]).score = JsNum.nan ∧
    ∀ q : ℚ, (scoreKeywords "javascript developer" [" "]).score ≠ JsNum.num q := by
  have h : scoreLoop (jsToLower "javascript developer") [" "] [] [] = ([], []) := by decide
  have hs : (scoreKeywords "javascript developer" [" "]).score = JsNum.nan := by
    simp only [scoreKeywords, h]
    norm_num [jsDiv, jsMul100, clampScore]
  refine ⟨hs, fun q => ?_⟩
  rw [hs]
  simp

/-- C2 (amended): for every text and every keyword list containing at
least one non-blank keyword, the score is an integer in [0, 100] lying
within 1 of `round (100 * matched / distinct)` and equal to it whenever
`100 * matched / distinct` is not an exact half-integer; duplicates and
blanks are collapsed before the denominator is computed; matching is
case-insensitive in the text; and the empty keyword list scores 0 with
no matches.  (At an exact half boundary the program's IEEE double
rounding of the ratio decides the direction — 23 matches of 40 distinct
keywords score 57, not 58 — and a non-empty list whose keywords are all
blank yields NaN, per the counterexample.) -/
theorem scoreKeywords_spec (T U : String) (K : List String)
    (hTU : jsToLower T = jsToLower U)
    (hK : ∃ kw ∈ K, normalizeWord kw ≠ "") :
    scoreKeywords T K = scoreKeywords U K ∧
    scoreKeywords T [] = { score := JsNum.num 0, keywordsMatched := [] } ∧
    ∃ z : ℤ, (scoreKeywords T K).score = JsNum.num (z : ℚ) ∧ 0 ≤ z ∧ z ≤ 100 ∧
      |z - round ((100 : ℚ) * (scoreKeywords T K).keywordsMatched.length /
        (distinctKeywordCount K : ℚ))| ≤ 1 ∧
      ((∀ j : ℤ, (200 : ℚ) * (scoreKeywords T K).keywordsMatched.length /
          (distinctKeywordCount K : ℚ) ≠ 2 * j + 1) →
        z = round ((100 : ℚ) * (scoreKeywords T K).keywordsMatched.length /
          (distinctKeywordCount K : ℚ))) ∧
      (scoreKeywords T K).keywordsMatched.length ≤ distinctKeywordCount K ∧
      0 < distinctKeywordCount K := by
  obtain ⟨hd, hm, hs, h0, h100⟩ := scoreKeywords_eval T K hK
  refine ⟨?_, ?_, ⟨_, hs, h0, h100, by simp, fun _ => rfl, hm, hd⟩⟩
  · simp only [scoreKeywords, hTU]
  · simp [scoreKeywords, scoreLoop]

/-- Witness for the amended C2 theorem at a concrete mixed-case,
duplicate-and-blank keyword list (1 match of 2 distinct: the ratio
`50` is not a half boundary, so the score is exactly `round 50`). -/
theorem scoreKeywords_spec_witness :
    scoreKeywords "Hello JS" ["JS", "js", " ", "python"] =
      scoreKeywords "hello js" ["JS", "js", " ", "python"] ∧
    scoreKeywords "Hello JS" [] = { score := JsNum.num 0, keywordsMatched := [] } ∧
    ∃ z : ℤ, (scoreKeywords "Hello JS" ["JS", "js", " ", "python"]).score =
        JsNum.num (z : ℚ) ∧ 0 ≤ z ∧ z ≤ 100 ∧
      |z - round ((100 : ℚ) *
        (scoreKeywords "Hello JS" ["JS", "js", " ", "python"]).keywordsMatched.length /
        (distinctKeywordCount ["JS", "js", " ", "python"] : ℚ))| ≤ 1 ∧
      ((∀ j : ℤ, (200 : ℚ) *
          (scoreKeywords "Hello JS" ["JS", "js", " ", "python"]).keywordsMatched.length /
          (distinctKeywordCount ["JS", "js", " ", "python"] : ℚ) ≠ 2 * j + 1) →
        z = round ((100 : ℚ) *
          (scoreKeywords "Hello JS" ["JS", "js", " ", "python"]).keywordsMatched.length /
          (distinctKeywordCount ["JS", "js", " ", "python"] : ℚ))) ∧
      (scoreKeywords "Hello JS" ["JS", "js", " ", "python"]).keywordsMatched.length ≤
        distinctKeywordCount ["JS", "js", " ", "python"] ∧
      0 < distinctKeywordCount ["JS", "js", " ", "python"] :=
  scoreKeywords_spec "Hello JS" "hello js" ["JS", "js", " ", "python"] (by decide) (by decide)

/-! ## Lemmas about the request throttle -/

/-- `rateCalls` distributes over list append. -/
theorem rateCalls_append (buckets : String → List Int) (k : String) (xs ys : List Int)
    (limit : Nat) (w : Int) :
    rateCalls buckets k (xs ++ ys) limit w =
      ((rateCalls buckets k xs limit w).1 ++
        (rateCalls (rateCalls buckets k xs limit w).2 k ys limit w).1,
       (rateCalls (rateCalls buckets k xs limit w).2 k ys limit w).2) := by
  induction xs generalizing buckets with
  | nil => simp [rateCalls]
  | cons t rest ih => simp [rateCalls, ih]

/-- While a key's bucket has room and all timestamps are mutually
within the window, every call is allowed and appends its timestamp. -/
theorem rateCalls_fill (k : String) (ts : List Int) :
    ∀ (buckets : String → List Int) (prev : List Int),
      buckets k = prev →
      (∀ a ∈ prev ++ ts, ∀ b ∈ prev ++ ts, a - b < 60000) →
      prev.length + ts.length ≤ 10 →
      (rateCalls buckets k ts 10 60000).1 = List.replicate ts.length true ∧
      (rateCalls buckets k ts 10 60000).2 k = prev ++ ts := by
  induction ts with
  | nil => intro buckets prev hb _ _; simp [rateCalls, hb]
  | cons t rest ih =>
      intro buckets prev hb hfresh hlen
      have hrecent : (buckets k).filter (fun x => t - x < 60000) = prev := by
        rw [hb]
        apply List.filter_eq_self.mpr
        intro b hbmem
        simp only [decide_eq_true_eq]
        exact hfresh t (by simp) b (by simp [hbmem])
      have hroom : ¬ 10 ≤ prev.length := by
        simp only [List.length_cons] at hlen
        omega
      have hstep : checkRateLimit buckets k t 10 60000 =
          (true, fun k' => if k' = k then prev ++ [t] else buckets k') := by
        unfold checkRateLimit
        rw [hrecent, if_neg hroom]
      have hfresh' : ∀ a ∈ (prev ++ [t]) ++ rest, ∀ b ∈ (prev ++ [t]) ++ rest,
          a - b < 60000 := by
        intro a ha b hb'
        apply hfresh <;> simp at ha hb' ⊢ <;> tauto
      have hlen' : (prev ++ [t]).length + rest.length ≤ 10 := by
        simp only [List.length_append, List.length_cons, List.length_nil] at hlen ⊢
        omega
      obtain ⟨ih1, ih2⟩ := ih (fun k' => if k' = k then prev ++ [t] else buckets k')
        (prev ++ [t]) (by simp) hfresh' hlen'
      simp only [rateCalls, hstep]
      constructor
      · simp only [ih1, List.length_cons, List.replicate_succ]
      · rw [ih2]
        simp

/-- C8: with the default window (60 000 ms) and limit (10), starting
from an empty bucket, ten calls whose times all lie within one window
are allowed, the eleventh call inside the window is denied without
recording a timestamp (the bucket still holds exactly the ten allowed
times), and once the window has elapsed past every recorded timestamp a
further call is allowed again. -/
theorem rateLimit_window_spec (buckets : String → List Int) (k : String)
    (ts : List Int) (tExtra tLater : Int)
    (hempty : buckets k = [])
    (hlen : ts.length = 10)
    (hfresh : ∀ a ∈ ts ++ [tExtra], ∀ b ∈ ts ++ [tExtra], a - b < 60000)
    (hlater : ∀ x ∈ ts, 60000 ≤ tLater - x) :
    (rateCalls buckets k (ts ++ [tExtra]) 10 60000).1 =
      List.replicate 10 true ++ [false] ∧
    (rateCalls buckets k (ts ++ [tExtra]) 10 60000).2 k = ts ∧
    (checkRateLimit ((rateCalls buckets k (ts ++ [tExtra]) 10 60000).2) k tLater
      10 60000).1 = true := by
  have hfresh10 : ∀ a ∈ ([] : List Int) ++ ts, ∀ b ∈ ([] : List Int) ++ ts,
      a - b < 60000 := by
    intro a ha b hb'
    apply hfresh <;> simp at ha hb' ⊢ <;> tauto
  obtain ⟨h1, h2⟩ := rateCalls_fill k ts buckets [] hempty hfresh10 (by simp [hlen])
  simp only [List.nil_append] at h2
  have hrecent : (((rateCalls buckets k ts 10 60000).2) k).filter
      (fun x => tExtra - x < 60000) = ts := by
    rw [h2]
    apply List.filter_eq_self.mpr
    intro b hbmem
    simp only [decide_eq_true_eq]
    exact hfresh tExtra (by simp) b (by simp [hbmem])
  have hfull : 10 ≤ ts.length := by omega
  have hstep : checkRateLimit ((rateCalls buckets k ts 10 60000).2) k tExtra 10 60000 =
      (false, fun k' => if k' = k then ts else ((rateCalls buckets k ts 10 60000).2) k') := by
    unfold checkRateLimit
    rw [hrecent, if_pos hfull]
  rw [rateCalls_append]
  simp only [rateCalls, hstep]
  refine ⟨?_, ?_, ?_⟩
  · rw [h1, hlen]
  · simp
  · have hbucket : ((fun k' => if k' = k then ts
        else ((rateCalls buckets k ts 10 60000).2) k') k) = ts := by simp
    unfold checkRateLimit
    have hstale : (ts.filter (fun x => tLater - x < 60000)) = [] := by
      apply List.filter_eq_nil_iff.mpr
      intro x hx
      simp only [decide_eq_true_eq]
      have := hlater x hx
      omega
    rw [hbucket, hstale, if_neg (by simp)]

/-- Witness for the C8 theorem: ten calls at time 0, an eleventh at
time 0 denied, and a later call at time 60 000 allowed. -/
theorem rateLimit_window_spec_witness :
    (rateCalls (fun _ => []) "k" (List.replicate 10 0 ++ [0]) 10 60000).1 =
      List.replicate 10 true ++ [false] ∧
    (rateCalls (fun _ => []) "k" (List.replicate 10 0 ++ [0]) 10 60000).2 "k" =
      List.replicate 10 0 ∧
    (checkRateLimit ((rateCalls (fun _ => []) "k" (List.replicate 10 0 ++ [0]) 10 60000).2)
      "k" 60000 10 60000).1 = true :=
  rateLimit_window_spec (fun _ => []) "k" (List.replicate 10 0) 0 60000 rfl (by decide)
    (by decide) (by decide)

/-! ## Lemmas about response parsing -/

/-- Anything `RESULT_SCHEMA` accepts has an integer `atsScore`
in [0, 100]. -/
theorem resultSchemaParse_bound (v : JsValue) (a : GeminiFileAnalysis)
    (h : resultSchemaParse v = some a) :
    ∃ z : ℤ, a.atsScore = JsNum.num (z : ℚ) ∧ 0 ≤ z ∧ z ≤ 100 := by
  simp only [resultSchemaParse, Option.bind_eq_bind, Option.bind_eq_some, Option.pure_def,
    Option.some.injEq] at h
  obtain ⟨fields, -, q, hq, feedback, -, keywords, -, heq⟩ := h
  have hscore : a.atsScore = JsNum.num q := by rw [← heq]
  obtain ⟨scoreV, -, hq⟩ := hq
  unfold asIntScore at hq
  split at hq
  · rename_i q'
    split at hq
    · rename_i hcond
      have hqq : q' = q := Option.some.inj hq
      rw [hqq] at hcond
      obtain ⟨hden, h0, h100⟩ := hcond
      have hcast : ((q.num : ℚ)) = q := by
        exact_mod_cast ((Rat.den_eq_one_iff q).mp hden)
      refine ⟨q.num, ?_, ?_, ?_⟩
      · rw [hscore, hcast]
      · exact_mod_cast hcast ▸ h0
      · exact_mod_cast hcast ▸ h100
    · simp at hq
  · simp at hq

/-- `attemptParse` either returns a schema-validated analysis of the
parsed trimmed source, or fails with `EMPTY_OR_NON_JSON`. -/
theorem attemptParse_spec (jp : String → Option JsValue) (s : String) :
    (∀ c, attemptParse jp s = Except.error c → c = GeminiParseErrorCode.EMPTY_OR_NON_JSON) ∧
    (∀ a, attemptParse jp s = Except.ok a →
      ∃ v, jp (jsTrim s) = some v ∧ resultSchemaParse v = some a) := by
  by_cases h0 : jsTrim s = ""
  · have hred : attemptParse jp s = Except.error GeminiParseErrorCode.EMPTY_OR_NON_JSON := by
      unfold attemptParse
      rw [if_pos h0]
    refine ⟨fun c hc => ?_, fun a ha => ?_⟩
    · rw [hred] at hc
      exact (Except.error.inj hc).symm
    · rw [hred] at ha
      simp at ha
  · cases hjp : jp (jsTrim s) with
    | none =>
      have hred : attemptParse jp s = Except.error GeminiParseErrorCode.EMPTY_OR_NON_JSON := by
        unfold attemptParse
        rw [if_neg h0, hjp]
      refine ⟨fun c hc => ?_, fun a ha => ?_⟩
      · rw [hred] at hc
        exact (Except.error.inj hc).symm
      · rw [hred] at ha
        simp at ha
    | some v =>
      cases hsp : resultSchemaParse v with
      | none =>
        have hred : attemptParse jp s = Except.error GeminiParseErrorCode.EMPTY_OR_NON_JSON := by
          unfold attemptParse
          rw [if_neg h0, hjp]
          show (match resultSchemaParse v with
            | none => Except.error GeminiParseErrorCode.EMPTY_OR_NON_JSON
            | some a => Except.ok a) = Except.error GeminiParseErrorCode.EMPTY_OR_NON_JSON
          rw [hsp]
        refine ⟨fun c hc => ?_, fun a ha => ?_⟩
        · rw [hred] at hc
          exact (Except.error.inj hc).symm
        · rw [hred] at ha
          simp at ha
      | some b =>
        have hred : attemptParse jp s = Except.ok b := by
          unfold attemptParse
          rw [if_neg h0, hjp]
          show (match resultSchemaParse v with
            | none => Except.error GeminiParseErrorCode.EMPTY_OR_NON_JSON
            | some a => Except.ok a) = Except.ok b
          rw [hsp]
        refine ⟨fun c hc => ?_, fun a ha => ?_⟩
        · rw [hred] at hc
          simp at hc
        · rw [hred] at ha
          exact ⟨v, rfl, by rw [hsp, Except.ok.inj ha]⟩

/-- C4: response parsing either yields a schema-valid analysis —
obtained by parsing the trimmed payload directly, or by stripping one
fenced code block and parsing that — with an integer `atsScore` in
[0, 100], or it fails carrying exactly the `EMPTY_OR_NON_JSON` code; it
never returns data outside the schema. -/
theorem parseGeminiJson_sound (jp : String → Option JsValue) (P : String) :
    match parseGeminiJson jp P with
    | Except.error c => c = GeminiParseErrorCode.EMPTY_OR_NON_JSON
    | Except.ok a =>
        (∃ z : ℤ, a.atsScore = JsNum.num (z : ℚ) ∧ 0 ≤ z ∧ z ≤ 100) ∧
        ((∃ v, jp (jsTrim P) = some v ∧ resultSchemaParse v = some a) ∨
         (∃ s, stripMarkdownFence P = some s ∧ ¬ s = "" ∧
            ∃ v, jp (jsTrim s) = some v ∧ resultSchemaParse v = some a)) := by
  cases h1 : attemptParse jp P with
  | ok a =>
      have hred : parseGeminiJson jp P = Except.ok a := by
        unfold parseGeminiJson
        rw [h1]
      rw [hred]
      obtain ⟨v, hv, hs⟩ := (attemptParse_spec jp P).2 a h1
      exact ⟨resultSchemaParse_bound v a hs, Or.inl ⟨v, hv, hs⟩⟩
  | error e =>
      cases h2 : stripMarkdownFence P with
      | none =>
          have hred : parseGeminiJson jp P =
              Except.error GeminiParseErrorCode.EMPTY_OR_NON_JSON := by
            unfold parseGeminiJson
            rw [h1, h2]
          rw [hred]
      | some s =>
          have hred : parseGeminiJson jp P =
              if s = "" then Except.error GeminiParseErrorCode.EMPTY_OR_NON_JSON
              else attemptParse jp s := by
            unfold parseGeminiJson
            rw [h1, h2]
          by_cases hs0 : s = ""
          · rw [hred, if_pos hs0]
          · rw [hred, if_neg hs0]
            cases h3 : attemptParse jp s with
            | ok a =>
                obtain ⟨v, hv, hsv⟩ := (attemptParse_spec jp s).2 a h3
                exact ⟨resultSchemaParse_bound v a hsv, Or.inr ⟨s, rfl, hs0, v, hv, hsv⟩⟩
            | error c =>
                exact (attemptParse_spec jp s).1 c h3

/-! ## Lemmas about the Gemini file client -/

/-- Every SDK finish reason renders to a non-empty string. -/
theorem finishReason_render_ne (fr : FinishReason) : ¬ FinishReason.render fr = "" := by
  cases fr <;> decide

/-- An outcome built from a successful call never carries an empty
finish reason (absence becomes `"UNKNOWN"`). -/
theorem attemptOutcomeOf_fr_ne (resp : ModelResponse) :
    ¬ (attemptOutcomeOf resp).finishReason = "" := by
  cases hc : resp.candidate with
  | none => simp [attemptOutcomeOf, hc]
  | some c =>
      cases hf : c.finishReason with
      | none => simp [attemptOutcomeOf, hc, hf]
      | some fr =>
          have hne := finishReason_render_ne fr
          simp [attemptOutcomeOf, hc, hf]
          exact hne

/-- `runModelRequest` never uploads a file. -/
theorem runModelRequest_no_upload (call : ProviderCall) (mb : Int) (t : Option Int)
    (now : Int) : Event.uploadFile ∉ (runModelRequest call mb t now).2.2 := by
  unfold runModelRequest
  rcases call.reply with resp | ⟨status, hint⟩ <;> cases t <;> simp only []
  all_goals try split
  all_goals try split
  all_goals try split
  all_goals try split
  all_goals simp

/-- Inversion of a successful `runModelRequest`: the scripted reply was
a response, the outcome is its `attemptOutcomeOf`, the clock advanced by
the call duration, and any positive timeout strictly exceeds the
duration. -/
theorem runModelRequest_ok_inv (call : ProviderCall) (mb : Int) (t : Option Int)
    (now : Int) (o : AttemptOutcome)
    (h : (runModelRequest call mb t now).1 = Except.ok o) :
    (∃ resp, call.reply = CallReply.ok resp ∧ o = attemptOutcomeOf resp) ∧
    (runModelRequest call mb t now).2.1 = now + call.duration ∧
    (∀ tv, t = some tv → 0 < tv → call.duration < tv) := by
  cases hr : call.reply with
  | err status hint =>
      exfalso
      unfold runModelRequest at h
      rw [hr] at h
      simp only [] at h
      cases t with
      | none =>
          repeat' split at h
          all_goals simp at h
      | some tv =>
          repeat' split at h
          all_goals simp at h
  | ok resp =>
      cases t with
      | none =>
          have hred : runModelRequest call mb none now =
              (Except.ok (attemptOutcomeOf resp), now + call.duration, [Event.generate]) := by
            unfold runModelRequest
            rw [hr]
          rw [hred] at h
          refine ⟨⟨resp, rfl, (Except.ok.inj h).symm⟩, by rw [hred], ?_⟩
          intro tv htv
          cases htv
      | some tv =>
          by_cases htv : tv ≤ 0
          · have hred : runModelRequest call mb (some tv) now =
                (Except.ok (attemptOutcomeOf resp), now + call.duration, [Event.generate]) := by
              unfold runModelRequest
              rw [hr]
              simp only []
              rw [if_pos htv]
            rw [hred] at h
            refine ⟨⟨resp, rfl, (Except.ok.inj h).symm⟩, by rw [hred], ?_⟩
            intro tv2 htv2 hpos
            obtain ⟨rfl⟩ := Option.some.inj htv2
            omega
          · by_cases hlt : now + call.duration - now < tv
            · have hred : runModelRequest call mb (some tv) now =
                  (Except.ok (attemptOutcomeOf resp), now + call.duration, [Event.generate]) := by
                unfold runModelRequest
                rw [hr]
                simp only []
                rw [if_neg htv, if_pos hlt]
              rw [hred] at h
              refine ⟨⟨resp, rfl, (Except.ok.inj h).symm⟩, by rw [hred], ?_⟩
              intro tv2 htv2 hpos
              obtain ⟨rfl⟩ := Option.some.inj htv2
              omega
            · exfalso
              have hred : runModelRequest call mb (some tv) now =
                  (Except.error (GemFailure.parseFail GeminiParseErrorCode.TIMEOUT),
                    now + tv, [Event.generate]) := by
                unfold runModelRequest
                rw [hr]
                simp only []
                rw [if_neg htv, if_neg hlt]
              rw [hred] at h
              simp at h

/-- The deadline check at entry always passes: the remaining budget is
the full 7 s in production and absent otherwise. -/
theorem ensureTimeRemaining_start (isProd : Bool) (now : Int) :
    ensureTimeRemaining (if isProd then some (now + 7000) else none) now =
      Except.ok (if isProd then some 7000 else none) := by
  cases isProd with
  | false => simp [ensureTimeRemaining]
  | true =>
      have harith : now + 7000 - now = 7000 := by omega
      simp [ensureTimeRemaining, harith]

/-- Phase-1 failure: `analyzeWithGeminiFile` propagates the error with
phase 1's clock and trace. -/
theorem analyze_error_step (env : GeminiEnv) (now : Int) (e : GemFailure)
    (hp1 : (runModelRequest env.inlineCall env.maxBackoffMs
      (if env.isProd then some 7000 else none) now).1 = Except.error e) :
    analyzeWithGeminiFile env now =
      (Except.error e,
       (runModelRequest env.inlineCall env.maxBackoffMs
         (if env.isProd then some 7000 else none) now).2.1,
       (runModelRequest env.inlineCall env.maxBackoffMs
         (if env.isProd then some 7000 else none) now).2.2) := by
  unfold analyzeWithGeminiFile
  simp only [ensureTimeRemaining_start, hp1]

/-- Phase-1 success with a sufficient outcome: the result is the parsed
inline text. -/
theorem analyze_noretry_step (env : GeminiEnv) (now : Int) (o : AttemptOutcome)
    (hp1 : (runModelRequest env.inlineCall env.maxBackoffMs
      (if env.isProd then some 7000 else none) now).1 = Except.ok o)
    (hsr : shouldRetry o = false) :
    analyzeWithGeminiFile env now =
      ((parseGeminiJson env.jsonParse o.text).mapError GemFailure.parseFail,
       (runModelRequest env.inlineCall env.maxBackoffMs
         (if env.isProd then some 7000 else none) now).2.1,
       (runModelRequest env.inlineCall env.maxBackoffMs
         (if env.isProd then some 7000 else none) now).2.2) := by
  unfold analyzeWithGeminiFile
  simp only [ensureTimeRemaining_start, hp1, hsr, Bool.not_false, if_pos]

/-- Phase-1 success with an insufficient outcome: phase 2 runs against
the remaining budget, and the trace is phase 1's followed by
phase 2's. -/
theorem analyze_retry_step (env : GeminiEnv) (now : Int) (o : AttemptOutcome)
    (hp1 : (runModelRequest env.inlineCall env.maxBackoffMs
      (if env.isProd then some 7000 else none) now).1 = Except.ok o)
    (hsr : shouldRetry o = true) :
    analyzeWithGeminiFile env now =
      (let p1c := (runModelRequest env.inlineCall env.maxBackoffMs
         (if env.isProd then some 7000 else none) now).2.1
       let p1t := (runModelRequest env.inlineCall env.maxBackoffMs
         (if env.isProd then some 7000 else none) now).2.2
       let p2 := runFileUploadAttempt env.fileCall env.upload env.maxBackoffMs
         (if env.isProd then some (now + 7000 - p1c) else none) p1c
       match p2.1 with
       | Except.error e => (Except.error e, p2.2.1, p1t ++ p2.2.2)
       | Except.ok o2 =>
           if !shouldRetry o2 then
             ((parseGeminiJson env.jsonParse o2.text).mapError GemFailure.parseFail,
               p2.2.1, p1t ++ p2.2.2)
           else
             (Except.error (GemFailure.parseFail
                 (if env.isProd then GeminiParseErrorCode.EMPTY_PROD
                  else GeminiParseErrorCode.EMPTY_OR_NON_JSON)),
               p2.2.1, p1t ++ p2.2.2)) := by
  obtain ⟨-, hclock, hbudget⟩ := runModelRequest_ok_inv env.inlineCall env.maxBackoffMs
    (if env.isProd then some 7000 else none) now o hp1
  have hsecond : ensureTimeRemaining (if env.isProd then some (now + 7000) else none)
      ((runModelRequest env.inlineCall env.maxBackoffMs
        (if env.isProd then some 7000 else none) now).2.1) =
      Except.ok (if env.isProd then some (now + 7000 -
        (runModelRequest env.inlineCall env.maxBackoffMs
          (if env.isProd then some 7000 else none) now).2.1) else none) := by
    cases hprod : env.isProd with
    | false => simp [ensureTimeRemaining, hprod]
    | true =>
        have hdur : env.inlineCall.duration < 7000 :=
          hbudget 7000 (by simp [hprod]) (by omega)
        have hclock2 : (runModelRequest env.inlineCall env.maxBackoffMs
            (some 7000) now).2.1 = now + env.inlineCall.duration := by
          simpa [hprod] using hclock
        simp only [hprod, ensureTimeRemaining, if_true]
        rw [if_neg (by rw [hclock2]; omega)]
  unfold analyzeWithGeminiFile
  simp only [ensureTimeRemaining_start, hp1, hsr, Bool.not_true, if_neg, hsecond]
  simp

/-- For outcomes with a non-empty finish reason (all outcomes a real
call produces), `shouldRetry` is exactly "blank text or not a normal
STOP completion". -/
theorem shouldRetry_iff (o : AttemptOutcome) (hfr : ¬ o.finishReason = "") :
    shouldRetry o = true ↔ (jsTrim o.text = "" ∨ ¬ o.finishReason = "STOP") := by
  unfold shouldRetry
  by_cases he : (jsTrim o.text).isEmpty
  · rw [if_pos he]
    simp only [true_iff]
    exact Or.inl ((String.isEmpty_iff (jsTrim o.text)).mp he)
  · have htext : ¬ jsTrim o.text = "" := fun h =>
      he ((String.isEmpty_iff (jsTrim o.text)).mpr h)
    have hfrb : o.finishReason.isEmpty = false := by
      cases hb : o.finishReason.isEmpty with
      | false => rfl
      | true => exact absurd ((String.isEmpty_iff o.finishReason).mp hb) hfr
    by_cases hstop : o.finishReason = "STOP"
    · simp [he, hfrb, hstop, htext]
    · simp [he, hfrb, hstop, htext]

/-- Phase 2 always begins by uploading the document bytes. -/
theorem runFileUploadAttempt_upload_mem (call : ProviderCall) (upload : UploadScript)
    (mb : Int) (t : Option Int) (now : Int) :
    Event.uploadFile ∈ (runFileUploadAttempt call upload mb t now).2.2 := by
  unfold runFileUploadAttempt
  by_cases hth : upload.uploadThrows
  · simp [hth]
  · simp only [hth, if_false, Bool.false_eq_true]
    split <;> simp

/-- C5: when the direct inline attempt completes with an outcome, the
storage-backed phase 2 is triggered exactly when the returned text is
blank or the finish reason is anything other than `"STOP"`. -/
theorem analyze_phase2_iff (env : GeminiEnv) (now : Int) (o : AttemptOutcome)
    (hp1 : (runModelRequest env.inlineCall env.maxBackoffMs
      (if env.isProd then some 7000 else none) now).1 = Except.ok o) :
    Event.uploadFile ∈ (analyzeWithGeminiFile env now).2.2 ↔
      (jsTrim o.text = "" ∨ ¬ o.finishReason = "STOP") := by
  obtain ⟨⟨resp, -, hout⟩, -, -⟩ := runModelRequest_ok_inv env.inlineCall env.maxBackoffMs
    (if env.isProd then some 7000 else none) now o hp1
  have hfr : ¬ o.finishReason = "" := by
    rw [hout]
    exact attemptOutcomeOf_fr_ne resp
  rw [← shouldRetry_iff o hfr]
  cases hsr : shouldRetry o with
  | false =>
      rw [analyze_noretry_step env now o hp1 hsr]
      simp only [Bool.false_eq_true, iff_false]
      exact runModelRequest_no_upload env.inlineCall env.maxBackoffMs
        (if env.isProd then some 7000 else none) now
  | true =>
      rw [analyze_retry_step env now o hp1 hsr]
      simp only [eq_self_iff_true, iff_true]
      split <;> (try split)
      all_goals
        simp only [List.mem_append]
        exact Or.inr (runFileUploadAttempt_upload_mem env.fileCall env.upload
          env.maxBackoffMs _ _)

deriving instance DecidableEq for Except

/-- Concrete client environment for the C5 witness: phase 1 returns
non-empty text with a `MAX_TOKENS` finish reason. -/
def geminiEnvC5 : GeminiEnv :=
  GeminiEnv.mk false 4000 (fun _ => none)
    (ProviderCall.mk 5 (CallReply.ok (ModelResponse.mk
      (some (Candidate.mk (some FinishReason.maxTokens) [some "hi"])) none)))
    (UploadScript.mk false (some (FileMeta.mk (some "files/w") (some "uri") (some "ACTIVE"))) [] true)
    (ProviderCall.mk 5 (CallReply.ok (ModelResponse.mk none none)))

/-- Witness for C5: a non-`STOP` finish reason with non-empty text
still triggers the storage-backed phase 2. -/
theorem analyze_phase2_iff_witness :
    Event.uploadFile ∈ (analyzeWithGeminiFile geminiEnvC5 0).2.2 ↔
      (jsTrim "hi" = "" ∨ ¬ "MAX_TOKENS" = "STOP") :=
  analyze_phase2_iff geminiEnvC5 0 (AttemptOutcome.mk "hi" "MAX_TOKENS" none) (by decide)

/-- C3 counterexample: with a 429 (hint 9 s) scripted for attempt 1 and
a successful response scripted for the next call, `analyzeWithGeminiFile`
raises `GeminiQuotaError` after a single `generateContent` call and one
capped sleep — the second attempt is never issued, so no retry happens
and no success is returned. -/
theorem analyze_quota_counterexample :
    analyzeWithGeminiFile (GeminiEnv.mk false 4000 (fun _ => none)
      (ProviderCall.mk 0 (CallReply.err (some 429) (some 9000)))
      (UploadScript.mk false (some (FileMeta.mk (some "files/x") (some "u") (some "ACTIVE"))) [] true)
      (ProviderCall.mk 0 (CallReply.ok (ModelResponse.mk
        (some (Candidate.mk (some FinishReason.stop) [some "ok"])) none)))) 0 =
    (Except.error (GemFailure.quota (some 8000)), 4000,
      [Event.generate, Event.sleepFor 4000]) := by
  decide

/-- C3 (amended): a remote attempt that fails with HTTP 429 is not
retried.  Outside production (no deadline), the client sleeps
`min(hint, maxBackoffMs)` (hint defaulting to 1000 ms) and then raises
`GeminiQuotaError` carrying `retryAt` — the `Date.now()` read after the
sleep plus the delay once more — after exactly one `generateContent`
call; so a quota failure on attempt 1 never yields a success. -/
theorem analyze_quota_no_retry (env : GeminiEnv) (now d hint : Int)
    (hprod : env.isProd = false)
    (hcall : env.inlineCall = ProviderCall.mk d (CallReply.err (some 429) (some hint))) :
    analyzeWithGeminiFile env now =
      (Except.error (GemFailure.quota
          (some (now + d + min hint env.maxBackoffMs + min hint env.maxBackoffMs))),
       now + d + min hint env.maxBackoffMs,
       [Event.generate, Event.sleepFor (min hint env.maxBackoffMs)]) := by
  have hrun : runModelRequest env.inlineCall env.maxBackoffMs
      (if env.isProd then some 7000 else none) now =
      (Except.error (GemFailure.quota
          (some (now + d + min hint env.maxBackoffMs + min hint env.maxBackoffMs))),
       now + d + min hint env.maxBackoffMs,
       [Event.generate, Event.sleepFor (min hint env.maxBackoffMs)]) := by
    rw [hprod, hcall]
    unfold runModelRequest
    simp
  rw [analyze_error_step env now _ (by rw [hrun])]
  rw [hrun]

/-- Witness for the amended C3 theorem at a concrete 2 s hint. -/
theorem analyze_quota_no_retry_witness :
    analyzeWithGeminiFile (GeminiEnv.mk false 4000 (fun _ => none)
      (ProviderCall.mk 10 (CallReply.err (some 429) (some 2000)))
      (UploadScript.mk false none [] true)
      (ProviderCall.mk 0 (CallReply.ok (ModelResponse.mk none none)))) 100 =
      (Except.error (GemFailure.quota (some (100 + 10 + min 2000 4000 + min 2000 4000))),
       100 + 10 + min 2000 4000,
       [Event.generate, Event.sleepFor (min 2000 4000)]) :=
  analyze_quota_no_retry (GeminiEnv.mk false 4000 (fun _ => none)
      (ProviderCall.mk 10 (CallReply.err (some 429) (some 2000)))
      (UploadScript.mk false none [] true)
      (ProviderCall.mk 0 (CallReply.ok (ModelResponse.mk none none)))) 100 10 2000 rfl rfl

/-- C9 counterexample: the upload stores the bytes under
`"files/x"`, but the file never reports an active uri, so the attempt
returns a `MISSING_URI` outcome and no deletion of the stored file is
ever attempted. -/
theorem upload_missing_uri_no_delete :
    (runFileUploadAttempt (ProviderCall.mk 0 (CallReply.ok (ModelResponse.mk none none)))
      (UploadScript.mk false (some (FileMeta.mk (some "files/x") none (some "PROCESSING")))
        [none] true) 4000 none 0).2.2 =
      [Event.uploadFile, Event.sleepFor 200, Event.getFile] ∧
    Event.deleteFile "files/x" ∉
      (runFileUploadAttempt (ProviderCall.mk 0 (CallReply.ok (ModelResponse.mk none none)))
        (UploadScript.mk false (some (FileMeta.mk (some "files/x") none (some "PROCESSING")))
          [none] true) 4000 none 0).2.2 ∧
    (runFileUploadAttempt (ProviderCall.mk 0 (CallReply.ok (ModelResponse.mk none none)))
      (UploadScript.mk false (some (FileMeta.mk (some "files/x") none (some "PROCESSING")))
        [none] true) 4000 none 0).1 =
      Except.ok (AttemptOutcome.mk "" "MISSING_URI" none) := by
  decide

/-- C9 (amended): whenever the upload yields a usable file name and the
file becomes addressable (a truthy uri), the storage-backed attempt
issues the model request and a deletion of the stored temporary file is
attempted afterward regardless of that request's outcome; the deletion's
own outcome is detached and swallowed, so the attempt's result does not
depend on it.  When the name or uri is missing, the attempt instead
returns a `MISSING_URI` outcome without attempting deletion (per the
counterexample). -/
theorem runFileUpload_cleanup (call : ProviderCall) (upload : UploadScript) (mb : Int)
    (t : Option Int) (now : Int)
    (hthrow : upload.uploadThrows = false)
    (hname : jsTruthyStr (upload.file.bind (fun f => f.name)) = true)
    (huri : jsTruthyStr (ensureFileActive upload.file upload.getFileResults now).1 = true) :
    Event.deleteFile ((upload.file.bind (fun f => f.name)).getD "") ∈
      (runFileUploadAttempt call upload mb t now).2.2 ∧
    (runFileUploadAttempt call
        (UploadScript.mk upload.uploadThrows upload.file upload.getFileResults true)
        mb t now).1 =
      (runFileUploadAttempt call
        (UploadScript.mk upload.uploadThrows upload.file upload.getFileResults false)
        mb t now).1 := by
  constructor
  · unfold runFileUploadAttempt
    simp only [hthrow, Bool.false_eq_true, if_false, hname, huri, Bool.not_true,
      Bool.or_self, List.mem_append]
    simp
  · rfl

/-- Witness for the amended C9 theorem with an immediately active
file. -/
theorem runFileUpload_cleanup_witness :
    Event.deleteFile (((some (FileMeta.mk (some "files/y") (some "uri") (some "ACTIVE"))).bind
        (fun f => f.name)).getD "") ∈
      (runFileUploadAttempt (ProviderCall.mk 0 (CallReply.ok (ModelResponse.mk none none)))
        (UploadScript.mk false (some (FileMeta.mk (some "files/y") (some "uri") (some "ACTIVE")))
          [] true) 4000 none 0).2.2 ∧
    (runFileUploadAttempt (ProviderCall.mk 0 (CallReply.ok (ModelResponse.mk none none)))
        (UploadScript.mk false (some (FileMeta.mk (some "files/y") (some "uri") (some "ACTIVE")))
          [] true) 4000 none 0).1 =
      (runFileUploadAttempt (ProviderCall.mk 0 (CallReply.ok (ModelResponse.mk none none)))
        (UploadScript.mk false (some (FileMeta.mk (some "files/y") (some "uri") (some "ACTIVE")))
          [] false) 4000 none 0).1 :=
  runFileUpload_cleanup (ProviderCall.mk 0 (CallReply.ok (ModelResponse.mk none none)))
    (UploadScript.mk false (some (FileMeta.mk (some "files/y") (some "uri") (some "ACTIVE")))
      [] true) 4000 none 0 rfl (by decide) (by decide)

/-! ## Lemmas about the orchestrator -/

/-- `Except.mapError` cannot turn a failure into a success. -/
theorem mapError_ok_inv {α β γ : Type} (x : Except α β) (f : α → γ) (b : β)
    (h : x.mapError f = Except.ok b) : x = Except.ok b := by
  cases x with
  | ok a => simpa [Except.mapError] using h
  | error e => simp [Except.mapError] at h

/-- Every success of `analyzeWithGeminiFile` went through the schema,
so its `atsScore` is an integer in [0, 100]. -/
theorem analyze_ok_bound (env : GeminiEnv) (now : Int) (r : GeminiFileAnalysis)
    (h : (analyzeWithGeminiFile env now).1 = Except.ok r) :
    ∃ z : ℤ, r.atsScore = JsNum.num (z : ℚ) ∧ 0 ≤ z ∧ z ≤ 100 := by
  cases hp1 : (runModelRequest env.inlineCall env.maxBackoffMs
      (if env.isProd then some 7000 else none) now).1 with
  | error e =>
      rw [analyze_error_step env now e hp1] at h
      simp at h
  | ok o =>
      cases hsr : shouldRetry o with
      | false =>
          rw [analyze_noretry_step env now o hp1 hsr] at h
          simp only [] at h
          have hp := mapError_ok_inv _ _ _ h
          have hs := parseGeminiJson_sound env.jsonParse o.text
          rw [hp] at hs
          exact hs.1
      | true =>
          rw [analyze_retry_step env now o hp1 hsr] at h
          simp only [] at h
          split at h
          · simp at h
          · split at h
            · simp only [] at h
              have hp := mapError_ok_inv _ _ _ h
              rename_i o2 heq2 hsr2
              have hs := parseGeminiJson_sound env.jsonParse o2.text
              rw [hp] at hs
              exact hs.1
            · simp at h

/-- `asFallbackReason` inverts `FallbackReason.render`. -/
theorem asFallbackReason_render (r : FallbackReason) :
    asFallbackReason (some (FallbackReason.render r)) = some r := by
  cases r <;> rfl

/-- The persisted record satisfies the fallback invariant by
construction. -/
theorem mkStored_fr_iff (env : PostEnv) (cvId uid : String) (result : GeminiFileAnalysis)
    (fr : Option FallbackReason) :
    ((mkStored env cvId uid result fr).usedFallback = true ↔
      ¬ (mkStored env cvId uid result fr).fallbackReason = none) ∧
    ((toApiResponse (mkStored env cvId uid result fr)).usedFallback = true ↔
      ¬ (toApiResponse (mkStored env cvId uid result fr)).fallbackReason = none) ∧
    (mkStored env cvId uid result fr).atsScore = result.atsScore := by
  cases fr with
  | none => simp [mkStored, toApiResponse, asFallbackReason]
  | some r => simp [mkStored, toApiResponse, asFallbackReason_render r]

/-- Inversion of `analysisFinish`: it always answers 201 with a
`mkStored` record and its API projection, whose analysis fields come
either from a successful remote analysis or from
`buildFallbackAnalysis`. -/
theorem analysisFinish_shape (env : PostEnv) (cvId uid : String) (kw : List String)
    (buf : Buf) (mime : String) :
    ∃ result fr,
      (analysisFinish env cvId uid kw buf mime).1 =
        PostResult.created (mkStored env cvId uid result fr)
          (toApiResponse (mkStored env cvId uid result fr)) ∧
      ((analyzeWithGeminiFile (geminiEnvOf env) env.now).1 = Except.ok result ∨
        result = buildFallbackAnalysis env.extractText buf mime kw) := by
  unfold analysisFinish
  by_cases hk : env.hasGeminiKey
  · rcases hga : analyzeWithGeminiFile (geminiEnvOf env) env.now with ⟨res, clk, evs⟩
    cases res with
    | ok r =>
        refine ⟨r, none, ?_, Or.inl rfl⟩
        simp only [hk, if_true, hga]
        simp
    | error e =>
        refine ⟨buildFallbackAnalysis env.extractText buf mime kw,
          some (classifyFailure e), ?_, Or.inr rfl⟩
        simp only [hk, if_true, hga]
        simp
  · refine ⟨buildFallbackAnalysis env.extractText buf mime kw,
      some FallbackReason.PARSE, ?_, Or.inr rfl⟩
    simp only [hk, if_false, Bool.false_eq_true]
    simp

/-- `jsTrim` in terms of `List.rdropWhile`. -/
theorem jsTrim_eq_rdrop (s : String) :
    jsTrim s = ⟨List.rdropWhile jsIsWs (s.data.dropWhile jsIsWs)⟩ := rfl

/-- Trimming is idempotent. -/
theorem jsTrim_idem (s : String) : jsTrim (jsTrim s) = jsTrim s := by
  rw [jsTrim_eq_rdrop, jsTrim_eq_rdrop]
  congr 1
  show List.rdropWhile jsIsWs
      ((List.rdropWhile jsIsWs (s.data.dropWhile jsIsWs)).dropWhile jsIsWs) =
    List.rdropWhile jsIsWs (s.data.dropWhile jsIsWs)
  have hdrop_r : (List.rdropWhile jsIsWs (s.data.dropWhile jsIsWs)).dropWhile jsIsWs
      = List.rdropWhile jsIsWs (s.data.dropWhile jsIsWs) := by
    obtain ⟨u, hu⟩ := List.rdropWhile_prefix jsIsWs (l := s.data.dropWhile jsIsWs)
    cases hrc : List.rdropWhile jsIsWs (s.data.dropWhile jsIsWs) with
    | nil => simp
    | cons a t =>
        rw [List.dropWhile_cons]
        rw [hrc] at hu
        have hd1c : s.data.dropWhile jsIsWs = a :: (t ++ u) := by
          rw [← hu]
          simp
        have h0 : 0 < (s.data.dropWhile jsIsWs).length := by
          rw [hd1c]
          simp
        have hget := List.dropWhile_get_zero_not jsIsWs s.data h0
        have hgeta : (s.data.dropWhile jsIsWs).get ⟨0, h0⟩ = a := by
          rw [List.get_of_eq hd1c]
          rfl
        rw [hgeta] at hget
        rw [if_neg hget]
  rw [hdrop_r]
  rw [List.rdropWhile_eq_self_iff]
  intro hl
  exact List.rdropWhile_last_not jsIsWs _ hl

/-- Lowercasing preserves length. -/
theorem jsToLower_length (s : String) : (jsToLower s).length = s.length := by
  show (s.data.map Char.toLower).length = s.data.length
  exact List.length_map s.data Char.toLower

/-- A string of positive length is not empty. -/
theorem ne_empty_of_length_pos (s : String) (h : 0 < s.length) : ¬ s = "" := by
  intro hrfl
  rw [hrfl] at h
  exact absurd h (by decide)

/-- The keyword list the orchestrator scores with is either the
non-blank default list or a list of trimmed non-blank keywords; in
every case it is empty or contains a keyword surviving
normalization. -/
theorem mapKeywords_good (kwOpt : Option (List String)) :
    mapKeywords kwOpt = [] ∨ ∃ kw ∈ mapKeywords kwOpt, ¬ normalizeWord kw = "" := by
  have hdefault : ∃ kw ∈ DEFAULT_KEYWORDS, ¬ normalizeWord kw = "" :=
    ⟨"javascript", by decide, by decide⟩
  cases kwOpt with
  | none => exact Or.inr hdefault
  | some ks =>
      by_cases hlen : ks.length = 0
      · right
        simpa [mapKeywords, hlen] using hdefault
      · cases hL : mapKeywords (some ks) with
        | nil => exact Or.inl rfl
        | cons k0 rest =>
            right
            refine ⟨k0, List.mem_cons_self k0 rest, ?_⟩
            have hk0 : k0 ∈ mapKeywords (some ks) := by
              rw [hL]
              exact List.mem_cons_self k0 rest
            simp only [mapKeywords, hlen, if_false] at hk0
            obtain ⟨hmem, hpos⟩ := List.mem_filter.mp hk0
            obtain ⟨orig, -, horig⟩ := List.mem_map.mp hmem
            have hpos2 : 0 < k0.length := by simpa using hpos
            have htrim : jsTrim k0 = k0 := by rw [← horig, jsTrim_idem]
            have hlow : 0 < (normalizeWord k0).length := by
              rw [normalizeWord, htrim, jsToLower_length]
              exact hpos2
            exact ne_empty_of_length_pos _ hlow

/-- The explicit empty-keyword-list branch of `scoreKeywords`. -/
theorem scoreKeywords_nil (T : String) :
    scoreKeywords T [] = { score := JsNum.num 0, keywordsMatched := [] } := rfl

/-- Field projections of `buildFallbackAnalysis`. -/
theorem buildFallback_fields (ext : Buf → String → String) (buf : Buf) (mime : String)
    (K : List String) :
    (buildFallbackAnalysis ext buf mime K).atsScore = (scoreKeywords (ext buf mime) K).score ∧
    (buildFallbackAnalysis ext buf mime K).keywords.extracted =
      (scoreKeywords (ext buf mime) K).keywordsMatched ∧
    (buildFallbackAnalysis ext buf mime K).keywords.missing =
      K.filter (fun k => !(scoreKeywords (ext buf mime) K).keywordsMatched.contains k) :=
  ⟨rfl, rfl, rfl⟩

/-- On any keyword list produced by `mapKeywords`, the fallback score is
an integer in [0, 100]. -/
theorem buildFallback_ats_bound (ext : Buf → String → String) (buf : Buf) (mime : String)
    (kwOpt : Option (List String)) :
    ∃ z : ℤ, (buildFallbackAnalysis ext buf mime (mapKeywords kwOpt)).atsScore =
      JsNum.num (z : ℚ) ∧ 0 ≤ z ∧ z ≤ 100 := by
  rcases mapKeywords_good kwOpt with hnil | ⟨kw, hmem, hnb⟩
  · refine ⟨0, ?_, le_refl 0, by norm_num⟩
    rw [(buildFallback_fields ext buf mime (mapKeywords kwOpt)).1, hnil, scoreKeywords_nil]
    norm_num
  · obtain ⟨-, -, hscore, h0, h100⟩ :=
      scoreKeywords_eval (ext buf mime) (mapKeywords kwOpt) ⟨kw, hmem, hnb⟩
    exact ⟨_, by rw [(buildFallback_fields ext buf mime (mapKeywords kwOpt)).1, hscore], h0, h100⟩

/-- The concrete sample text against the default keyword list: 3 of the
5 distinct keywords match, `round (3/5 * 100) = 60`. -/
theorem scoreKeywords_default_sample :
    scoreKeywords "javascript react node" DEFAULT_KEYWORDS =
      { score := JsNum.num 60,
        keywordsMatched := ["javascript", "react", "node"] } := by
  have h : scoreLoop (jsToLower "javascript react node")
      ["javascript", "react", "node", "typescript", "nextjs"] [] [] =
      (["javascript", "react", "node", "typescript", "nextjs"],
        ["javascript", "react", "node"]) := by decide
  simp only [scoreKeywords, DEFAULT_KEYWORDS, h]
  norm_num [jsDiv, jsMul100, clampScore]

/-- Every early exit of `resolveSource` is a classified error
response. -/
theorem resolveSource_error_shape {env : PostEnv} {cv : CvRecord} {ib im : Option String}
    {fa : Bool} {resp : PostResult × List Event}
    (h : resolveSource env cv ib im fa = Except.error resp) :
    ∃ status msg, resp.1 = PostResult.errorResp status msg := by
  unfold resolveSource at h
  simp only [] at h
  repeat' split at h
  all_goals first
    | (injection h with h1; exact ⟨_, _, (congrArg Prod.fst h1).symm⟩)
    | (exact absurd h (by simp))

/-- The happy cloudinary path of `resolveSource`: known positive remote
size within the limit, successful public HEAD and body fetch. -/
theorem resolveSource_fetch_ok (env : PostEnv) (cv : CvRecord) (im : Option String)
    (url : String) (buf : Buf) (bm : Option String) (n : Int)
    (hurl : deliveryUrlFromCv cv = some url)
    (hhead : env.headPublic url = { status := 200, ok := true, contentLength := some n })
    (hnpos : (0 : Int) < n)
    (hnmax : ¬ n > MAX_FILE_BYTES env.maxFileMb)
    (hurlne : ¬ url = "")
    (hfetch : env.fetchBinary url = some (buf, bm)) :
    resolveSource env cv none im false =
      Except.ok (buf, bm, some n, [Event.headPublic url, Event.fetchBody url]) := by
  have hnz : ¬ n = 0 := by omega
  unfold resolveSource
  simp only [hurl, hhead, hfetch, Bool.false_eq_true, if_false, jsTruthyOptInt,
    Option.getD_some, Bool.true_and, decide_eq_true_eq, hnz, hnpos, if_true,
    ne_eq, not_false_eq_true]
  rw [if_neg hnmax]
  rw [if_neg hurlne]
  simp

/-- Inversion of `POST`: a 201 response always carries a `mkStored`
record and its API projection, whose analysis payload is either a
schema-validated remote result or a `buildFallbackAnalysis` over a
`mapKeywords` keyword list. -/
theorem POST_created_inv (env : PostEnv) (S : AnalysisRecord) (A : ApiAnalysisResponse)
    (tr : List Event) (h : POST env = (PostResult.created S A, tr)) :
    ∃ cvId uid result fr kwOpt buf mime,
      S = mkStored env cvId uid result fr ∧
      A = toApiResponse S ∧
      ((analyzeWithGeminiFile (geminiEnvOf env) env.now).1 = Except.ok result ∨
        result = buildFallbackAnalysis env.extractText buf mime (mapKeywords kwOpt)) := by
  unfold POST at h
  simp only [] at h
  repeat' split at h
  all_goals try exact PostResult.noConfusion (congrArg Prod.fst h)
  all_goals try (rename_i resp heq
                 obtain ⟨st, msg, hr⟩ := resolveSource_error_shape heq
                 rw [h] at hr
                 exact PostResult.noConfusion hr)
  rename_i x3 uid hsess huid hrate x2 body hbody x1 cv hcv hown hsize x0 buf mime
    remoteSize evs heq hc1 hc2
  obtain ⟨result, fr, hshape, hsrc⟩ :=
    analysisFinish_shape env body.cvId uid (mapKeywords body.keywords) buf
      (mime.getD cv.mimeType)
  rw [Prod.mk.injEq] at h
  rw [hshape] at h
  rw [PostResult.created.injEq] at h
  exact ⟨body.cvId, uid, result, fr, body.keywords, buf, mime.getD cv.mimeType,
    h.1.1.symm, h.1.2.symm.trans (congrArg toApiResponse h.1.1), hsrc⟩

/-- **C6.** Every 201 response of `POST` persists a record, and returns
an API projection, in which `usedFallback` is true exactly when
`fallbackReason` is non-null. -/
theorem post_fallback_reason_iff (env : PostEnv) (S : AnalysisRecord)
    (A : ApiAnalysisResponse) (tr : List Event)
    (h : POST env = (PostResult.created S A, tr)) :
    (S.usedFallback = true ↔ ¬ S.fallbackReason = none) ∧
    (A.usedFallback = true ↔ ¬ A.fallbackReason = none) := by
  obtain ⟨cvId, uid, result, fr, kwOpt, buf, mime, hS, hA, -⟩ := POST_created_inv env S A tr h
  subst hA
  subst hS
  exact ⟨(mkStored_fr_iff env cvId uid result fr).1, (mkStored_fr_iff env cvId uid result fr).2.1⟩

/-- A CV record stored behind a small inline upload. -/
def cvInline : CvRecord :=
  { id := "cv1"
    userId := some "u1"
    fileUrl := some "https://res.example.com/raw/upload/v1/cv1.pdf"
    secureUrl := ""
    fileSize := 3
    mimeType := "application/pdf"
    publicId := some "p1"
    createdAtRaw := none }

/-- A `POST` environment taking the inline-bytes path with no remote
credential: the analysis falls back to local scoring. -/
def envC6 : PostEnv :=
  { sessionUserId := some "u1"
    buckets := fun _ => []
    now := 0
    body := some { cvId := "cv1", keywords := none, inlineBytes := some "QUJD", mimeType := none }
    forceAuthHeader := false
    isProd := false
    maxFileMb := 10
    maxBackoffMs := 4000
    findCv := fun i => if i = "cv1" then some cvInline else none
    headPublic := fun _ => { status := 404, ok := false, contentLength := none }
    signUrl := fun _ _ => Except.error ()
    headAuth := fun _ => { status := 404, ok := false, contentLength := none }
    fetchBinary := fun _ => none
    extractText := fun _ _ => "sample text"
    hasGeminiKey := false
    jsonParse := fun _ => none
    inlineCall := { duration := 0, reply := CallReply.err (some 500) none }
    upload := { uploadThrows := true, file := none, getFileResults := [], deleteOk := true }
    fileCall := { duration := 0, reply := CallReply.err (some 500) none }
    newId := "a1"
    createdAt := "2026-01-01T00:00:00Z" }

/-- The decoded inline bytes of `envC6` (`"QUJD"` is base64 for
`"ABC"`). -/
def bufInline : Buf := [65, 66, 67]

/-- The record `envC6` persists. -/
def SC6 : AnalysisRecord :=
  mkStored envC6 "cv1" "u1"
    (buildFallbackAnalysis envC6.extractText bufInline "application/pdf" DEFAULT_KEYWORDS)
    (some FallbackReason.PARSE)

theorem post_fallback_reason_iff_witness :
    (SC6.usedFallback = true ↔ ¬ SC6.fallbackReason = none) ∧
    ((toApiResponse SC6).usedFallback = true ↔ ¬ (toApiResponse SC6).fallbackReason = none) :=
  post_fallback_reason_iff envC6 SC6 (toApiResponse SC6)
    [Event.extractText, Event.persistCreate, Event.updateMeta] rfl

/-- **C7.** When the stored record's `fileSize` already exceeds the
configured maximum, `POST` answers 413 with an empty effect trace: no
HEAD probe, no body fetch and no remote-analysis call is attempted. -/
theorem post_size_exceeded_no_network (env : PostEnv) (uid : String) (body : PostBody)
    (cv : CvRecord)
    (hsess : env.sessionUserId = some uid) (huid : ¬ uid = "")
    (hrate : (checkRateLimit env.buckets ("analysis:" ++ uid) env.now 10 60000).1 = true)
    (hbody : env.body = some body)
    (hcv : env.findCv body.cvId = some cv) (hown : cv.userId = some uid)
    (hsize : cv.fileSize > MAX_FILE_BYTES env.maxFileMb) :
    POST env = (PostResult.errorResp 413
      ("File exceeds " ++ toString env.maxFileMb ++ "MB analysis limit."), []) := by
  unfold POST
  simp only [hsess, hbody, hcv]
  rw [if_neg huid]
  simp only [hrate, Bool.not_true, Bool.false_eq_true, if_false]
  rw [if_neg (not_not_intro hown)]
  rw [if_pos hsize]

/-- An oversized stored CV. -/
def cvC7 : CvRecord :=
  { id := "cv7"
    userId := some "u1"
    fileUrl := some "https://res.example.com/raw/upload/v1/cv7.pdf"
    secureUrl := ""
    fileSize := 999999999
    mimeType := "application/pdf"
    publicId := some "p7"
    createdAtRaw := none }

/-- The request body of the oversized-CV scenario. -/
def bodyC7 : PostBody :=
  { cvId := "cv7", keywords := none, inlineBytes := none, mimeType := none }

/-- Environment whose stored CV exceeds the 10 MB limit. -/
def envC7 : PostEnv :=
  { envC6 with
      body := some bodyC7
      findCv := fun i => if i = "cv7" then some cvC7 else none }

theorem post_size_exceeded_no_network_witness :
    POST envC7 = (PostResult.errorResp 413
      ("File exceeds " ++ toString envC7.maxFileMb ++ "MB analysis limit."), []) :=
  post_size_exceeded_no_network envC7 "u1" bodyC7 cvC7 rfl (by decide) rfl rfl rfl rfl
    (by decide)

/-- **C10.** Every record `POST` persists (and its API projection)
carries an `atsScore` that is an integer in [0, 100]: the remote path by
schema validation, the fallback path because `mapKeywords` yields either
an empty list (scored 0) or a list containing a non-blank trimmed
keyword, making the rounded, clamped ratio a well-defined integer in
range. -/
theorem post_atsScore_int_range (env : PostEnv) (S : AnalysisRecord)
    (A : ApiAnalysisResponse) (tr : List Event)
    (h : POST env = (PostResult.created S A, tr)) :
    ∃ z : ℤ, S.atsScore = JsNum.num (z : ℚ) ∧ A.atsScore = JsNum.num (z : ℚ) ∧
      0 ≤ z ∧ z ≤ 100 := by
  obtain ⟨cvId, uid, result, fr, kwOpt, buf, mime, hS, hA, hsrc⟩ := POST_created_inv env S A tr h
  have hSats : S.atsScore = result.atsScore := by rw [hS]; rfl
  have hAats : A.atsScore = S.atsScore := by rw [hA]; rfl
  rcases hsrc with hok | hfb
  · obtain ⟨z, hz, h0, h1⟩ := analyze_ok_bound (geminiEnvOf env) env.now result hok
    exact ⟨z, hSats.trans hz, hAats.trans (hSats.trans hz), h0, h1⟩
  · obtain ⟨z, hz, h0, h1⟩ := buildFallback_ats_bound env.extractText buf mime kwOpt
    rw [← hfb] at hz
    exact ⟨z, hSats.trans hz, hAats.trans (hSats.trans hz), h0, h1⟩

/-- Environment for the score-range witness: same inline fallback run
with extraction text matching two of the five default keywords. -/
def envC10 : PostEnv :=
  { envC6 with
      extractText := fun _ _ => "react and node experience"
      newId := "a2" }

/-- The record `envC10` persists. -/
def SC10 : AnalysisRecord :=
  mkStored envC10 "cv1" "u1"
    (buildFallbackAnalysis envC10.extractText bufInline "application/pdf" DEFAULT_KEYWORDS)
    (some FallbackReason.PARSE)

theorem post_atsScore_int_range_witness :
    ∃ z : ℤ, SC10.atsScore = JsNum.num (z : ℚ) ∧
      (toApiResponse SC10).atsScore = JsNum.num (z : ℚ) ∧ 0 ≤ z ∧ z ≤ 100 :=
  post_atsScore_int_range envC10 SC10 (toApiResponse SC10)
    [Event.extractText, Event.persistCreate, Event.updateMeta] rfl

/-- **C1.** End-to-end: a stored 1024-byte PDF, default keywords, text
extraction "javascript react node" and no remote credential yield a
persisted 201 with `atsScore = 60`, `extracted =
["javascript","react","node"]`, `missing = ["typescript","nextjs"]`,
`usedFallback = true` and `fallbackReason = "PARSE"`. -/
theorem post_fallback_end_to_end (env : PostEnv) (uid : String) (body : PostBody)
    (cv : CvRecord) (url : String) (buf : Buf)
    (hsess : env.sessionUserId = some uid) (huid : ¬ uid = "")
    (hrate : (checkRateLimit env.buckets ("analysis:" ++ uid) env.now 10 60000).1 = true)
    (hbody : env.body = some body)
    (hbin : body.inlineBytes = none)
    (hkw : body.keywords = none)
    (hcv : env.findCv body.cvId = some cv)
    (hown : cv.userId = some uid)
    (hsize : ¬ cv.fileSize > MAX_FILE_BYTES env.maxFileMb)
    (hforce : (!env.isProd && env.forceAuthHeader) = false)
    (hurl : deliveryUrlFromCv cv = some url)
    (hhead : env.headPublic url = { status := 200, ok := true, contentLength := some 1024 })
    (hmax : ¬ (1024 : Int) > MAX_FILE_BYTES env.maxFileMb)
    (hurlne : ¬ url = "")
    (hfetch : env.fetchBinary url = some (buf, some "application/pdf"))
    (hbuflen : buf.length = 1024)
    (hkey : env.hasGeminiKey = false)
    (hext : env.extractText buf "application/pdf" = "javascript react node") :
    ∃ S A, POST env =
        (PostResult.created S A,
          [Event.headPublic url, Event.fetchBody url, Event.extractText,
            Event.persistCreate, Event.updateMeta]) ∧
      S.atsScore = JsNum.num 60 ∧
      S.keywords.extracted = ["javascript", "react", "node"] ∧
      S.keywords.missing = ["typescript", "nextjs"] ∧
      S.usedFallback = true ∧
      S.fallbackReason = some "PARSE" ∧
      A = toApiResponse S := by
  have hbuf : ¬ (buf.length : Int) > MAX_FILE_BYTES env.maxFileMb := by
    rw [hbuflen]; simpa using hmax
  unfold POST
  simp only [hsess, hbody, hcv]
  rw [if_neg huid]
  simp only [hrate, Bool.not_true, Bool.false_eq_true, if_false]
  rw [if_neg (not_not_intro hown)]
  rw [if_neg hsize]
  simp only [hbin, hforce]
  rw [resolveSource_fetch_ok env cv _ url buf (some "application/pdf") 1024 hurl hhead
    (by norm_num) hmax hurlne hfetch]
  simp only [decide_eq_true_eq]
  rw [if_neg hmax]
  rw [if_neg hbuf]
  simp only [Option.getD_some, hkw, mapKeywords]
  simp only [analysisFinish, hkey, Bool.false_eq_true, if_false, Option.isNone_none,
    Option.getD_some, if_true]
  refine ⟨_, _, rfl, ?_, ?_, ?_, ?_, ?_, rfl⟩
  · simp only [mkStored]
    rw [(buildFallback_fields env.extractText buf "application/pdf" DEFAULT_KEYWORDS).1,
      hext, scoreKeywords_default_sample]
  · simp only [mkStored]
    rw [(buildFallback_fields env.extractText buf "application/pdf" DEFAULT_KEYWORDS).2.1,
      hext, scoreKeywords_default_sample]
  · simp only [mkStored]
    rw [(buildFallback_fields env.extractText buf "application/pdf" DEFAULT_KEYWORDS).2.2,
      hext, scoreKeywords_default_sample]
    decide
  · rfl
  · rfl

/-- The stored 1024-byte PDF of the end-to-end scenario. -/
def cvC1 : CvRecord :=
  { id := "cv0"
    userId := some "u1"
    fileUrl := some "https://res.example.com/raw/upload/v1/cv0.pdf"
    secureUrl := ""
    fileSize := 1024
    mimeType := "application/pdf"
    publicId := some "p0"
    createdAtRaw := none }

/-- The request body of the end-to-end scenario. -/
def bodyC1 : PostBody :=
  { cvId := "cv0", keywords := none, inlineBytes := none, mimeType := none }

/-- Environment of the end-to-end scenario: delivery URL probes
succeed, the body fetch returns 1024 bytes of PDF, extraction yields
"javascript react node", and no remote credential is configured. -/
def envC1 : PostEnv :=
  { envC6 with
      body := some bodyC1
      findCv := fun i => if i = "cv0" then some cvC1 else none
      headPublic := fun _ => { status := 200, ok := true, contentLength := some 1024 }
      fetchBinary := fun _ => some (List.replicate 1024 37, some "application/pdf")
      extractText := fun _ _ => "javascript react node" }

theorem post_fallback_end_to_end_witness :
    ∃ S A, POST envC1 =
        (PostResult.created S A,
          [Event.headPublic "https://res.example.com/raw/upload/v1/cv0.pdf",
            Event.fetchBody "https://res.example.com/raw/upload/v1/cv0.pdf",
            Event.extractText, Event.persistCreate, Event.updateMeta]) ∧
      S.atsScore = JsNum.num 60 ∧
      S.keywords.extracted = ["javascript", "react", "node"] ∧
      S.keywords.missing = ["typescript", "nextjs"] ∧
      S.usedFallback = true ∧
      S.fallbackReason = some "PARSE" ∧
      A = toApiResponse S :=
  post_fallback_end_to_end envC1 "u1" bodyC1 cvC1
    "https://res.example.com/raw/upload/v1/cv0.pdf" (List.replicate 1024 37)
    rfl (by decide) rfl rfl rfl rfl rfl rfl (by decide) rfl rfl rfl (by decide) (by decide)
    rfl (List.length_replicate 1024 37) rfl rfl
